import Mathlib

/-!
casbin-pg-adapter: row codec, query builders and adapter state

A shallow embedding of `adapter.go` (package `casbinpgadapter`): the row
codec (`savePolicyLine`, `loadPolicyLine`), the statement builders
(`QueryFilter`, `rawDelete`, `ExecInsertSqlRow`), the constructors, the load,
save, add and remove operations of the adapter against a store that logs the
statements it receives, and the `isFiltered` flag, followed by the properties
established about them.
-/

namespace CasbinPgAdapter

/-! ## Go values -/

/-- The Go struct `Filter`: per column, the acceptable values. -/
structure Filter where
  PType : List String := []
  V0 : List String := []
  V1 : List String := []
  V2 : List String := []
  V3 : List String := []
  V4 : List String := []
  V5 : List String := []
  deriving DecidableEq, Repr

/-- A Go `interface{}` value, as far as the adapter inspects it: `nil`, a
`string`, a `bool`, a `Filter` struct value, a `*Filter`, or a value of some
other dynamic type. -/
inductive Iface where
  | null
  | str (s : String)
  | bool (b : Bool)
  | filter (f : Filter)
  | filterPtr (f : Filter)
  | other (tag : Nat)
  deriving DecidableEq, Repr

/-- The result of running Go code: it returns a value or it panics. -/
inductive Go (α : Type) where
  | ret (v : α)
  | panics (msg : String)
  deriving DecidableEq, Repr

/-- Go `strconv.Itoa`. -/
def strconvItoa (i : Int) : String := toString i

/-- Go `strings.Join(elems, sep)`. -/
def stringsJoin (elems : List String) (sep : String) : String := sep.intercalate elems

/-- Go slice expression `p[:n]` for `n ≤ len(p)`. -/
def sliceTo (p : List String) (n : Nat) : List String := p.take n

/-- Go index expression `xs[i]` on a slice: a run-time panic when `i` is out
of range. -/
def goIndex (xs : List String) (i : Int) : Go String :=
  if 0 ≤ i ∧ i < xs.length then .ret (xs.getD i.toNat "")
  else .panics "index out of range"

/-- A Go `map[string]interface{}`: its entries, keys pairwise distinct. -/
abbrev GoMap := List (String × Iface)

/-- Go map assignment `m[k] = v`. -/
def GoMap.set (m : GoMap) (k : String) (v : Iface) : GoMap :=
  if m.any (fun e => e.1 == k) then m.map (fun e => if e.1 = k then (k, v) else e)
  else m ++ [(k, v)]

/-! ## Data model -/

/-- The Go struct `CasbinRule`: one persisted row. -/
structure CasbinRule where
  ID : Nat := 0
  PType : String := ""
  V0 : String := ""
  V1 : String := ""
  V2 : String := ""
  V3 : String := ""
  V4 : String := ""
  V5 : String := ""
  deriving DecidableEq, Repr

/-- The six positional fields of a row, in column order. -/
def CasbinRule.fields (line : CasbinRule) : List String :=
  [line.V0, line.V1, line.V2, line.V3, line.V4, line.V5]

/-! ## The relational store -/

/-- A statement handed to the store: its text and its positional arguments. -/
structure Stmt where
  text : String
  args : List Iface
  deriving DecidableEq, Repr

/-- One row of a result set as `rows.Scan` meets it: the column values, and
how many of the eight destinations (id, p_type, v0..v5) convert before `Scan`
stops; eight means the scan succeeds. -/
structure ResultRow where
  vals : CasbinRule
  converts : Nat := 8
  deriving DecidableEq, Repr

/-- Go `rows.Scan(&r.ID, &r.PType, &r.V0, ..., &r.V5)`: destinations are
assigned left to right up to the first column that does not convert. -/
def rowsScan (dest : CasbinRule) (r : ResultRow) : CasbinRule × Option String :=
  ({ ID := if 0 < r.converts then r.vals.ID else dest.ID
     PType := if 1 < r.converts then r.vals.PType else dest.PType
     V0 := if 2 < r.converts then r.vals.V0 else dest.V0
     V1 := if 3 < r.converts then r.vals.V1 else dest.V1
     V2 := if 4 < r.converts then r.vals.V2 else dest.V2
     V3 := if 5 < r.converts then r.vals.V3 else dest.V3
     V4 := if 6 < r.converts then r.vals.V4 else dest.V4
     V5 := if 7 < r.converts then r.vals.V5 else dest.V5 },
   if 8 ≤ r.converts then none else some "sql: Scan error")

/-- A `*sql.DB` that is not nil: how the store answers a statement given the
statements it has received so far, and those statements, oldest first. -/
structure SqlDB where
  execAnswer : List Stmt → Stmt → Option String
  queryAnswer : List Stmt → Stmt → Except String (List ResultRow)
  issued : List Stmt := []

/-- Go `db.Exec(text, args...)`: the error, if any. -/
def SqlDB.Exec (db : SqlDB) (text : String) (args : List Iface) : SqlDB × Option String :=
  ({ db with issued := db.issued ++ [⟨text, args⟩] }, db.execAnswer db.issued ⟨text, args⟩)

/-- Go `db.Query(text, args...)`: the rows or the error. -/
def SqlDB.Query (db : SqlDB) (text : String) (args : List Iface) :
    SqlDB × Except String (List ResultRow) :=
  ({ db with issued := db.issued ++ [⟨text, args⟩] }, db.queryAnswer db.issued ⟨text, args⟩)

/-! ## The adapter -/

def defaultDatabaseName : String := "casbin"

def defaultTableName : String := "casbin_rule"

/-- The Go struct `Adapter`; `db` is `none` for a nil `*sql.DB`. -/
structure Adapter where
  driverName : String := ""
  dataSourceName : String := ""
  databaseName : String := ""
  tablePrefix : String := ""
  tableName : String := ""
  dbSpecified : Bool := false
  db : Option SqlDB := none
  isFiltered : Bool := false

/-- The positional-parameter resolution at the head of `NewAdapter`, up to but
not including `a.open()`: a configured adapter, an error, or a panic. -/
def NewAdapter.resolveParams (driverName dataSourceName : String) (params : List Iface) :
    Go (Except String Adapter) :=
  let a : Adapter :=
    { driverName := driverName, dataSourceName := dataSourceName,
      tableName := defaultTableName, databaseName := defaultDatabaseName, dbSpecified := true }
  match params with
  | [] => .ret (.ok a)
  | [p1] =>
    match p1 with
    | .bool p1 => .ret (.ok { a with dbSpecified := p1 })
    | .str p1 => .ret (.ok { a with databaseName := p1 })
    | _ => .ret (.error "wrong format")
  | [p1, p2] =>
    match p2 with
    | .bool p2 =>
      match p1 with
      | .str p1 => .ret (.ok { a with dbSpecified := p2, databaseName := p1 })
      | _ => .ret (.error "wrong format")
    | .str p2 =>
      match p1 with
      | .str p1 => .ret (.ok { a with databaseName := p1, tableName := p2 })
      | _ => .ret (.error "wrong format")
    | _ => .ret (.error "wrong format")
  | [p1, p2, p3] =>
    match p3 with
    | .bool p3 =>
      match p1 with
      | .str p1 =>
        match p2 with
        | .str p2 => .ret (.ok { a with dbSpecified := p3, databaseName := p1, tableName := p2 })
        | _ => .panics "interface conversion: not a string"
      | _ => .panics "interface conversion: not a string"
    | _ => .ret (.error "wrong format")
  | _ => .ret (.error "too many parameters")

/-- Go `openDBConnection`; `sqlOpen` is the behaviour of `sql.Open`. -/
def openDBConnection (sqlOpen : String → String → Except String SqlDB)
    (driverName dataSourceName : String) : Except String SqlDB :=
  match sqlOpen driverName dataSourceName with
  | .error err => .error err
  | .ok db => .ok db

/-- Go `(a *Adapter) createDatabase`. -/
def Adapter.createDatabase (a : Adapter) : Go (Adapter × Option String) :=
  if a.driverName = "postgres" then
    match a.db with
    | none => .panics "nil pointer dereference"
    | some db =>
      let (db, err) := db.Exec ("CREATE DATABASE IF NOT EXISTS" ++ a.databaseName) []
      .ret ({ a with db := some db }, err)
  else .ret (a, none)

/-- The statement text of `createTable`. -/
def createTableText (tableName : String) : String :=
  "CREATE table IF NOT EXISTS " ++ tableName ++ " (id bigserial NOT NULL,p_type varchar(40) NULL,v0 varchar(40) NULL,v1 varchar(40) NULL,v2 varchar(40) NULL,v3 varchar(40) NULL,v4 varchar(40) NULL,v5 varchar(40) NULL,CONSTRAINT casbin_rule_pkey PRIMARY KEY (id)); CREATE UNIQUE INDEX IF NOT EXISTS unique_index ON " ++ tableName ++ " USING btree (p_type, v0, v1, v2, v3, v4, v5);"

/-- Go `(a *Adapter) createTable`. -/
def Adapter.createTable (a : Adapter) : Go (Adapter × Option String) :=
  if a.driverName = "postgres" then
    match a.db with
    | none => .panics "nil pointer dereference"
    | some db =>
      let (db, err) := db.Exec (createTableText a.tableName) []
      .ret ({ a with db := some db }, err)
  else .ret (a, none)

/-- Go `(a *Adapter) dropTable`. -/
def Adapter.dropTable (a : Adapter) : Go (Adapter × Option String) :=
  match a.db with
  | none => .panics "nil pointer dereference"
  | some db =>
    let (db, err) := db.Exec ("DROP TABLE " ++ a.tableName ++ ";") []
    .ret ({ a with db := some db }, err)

/-- Go `(a *Adapter) open`. -/
def Adapter.open (sqlOpen : String → String → Except String SqlDB) (a : Adapter) :
    Go (Adapter × Option String) :=
  if a.dbSpecified then
    match openDBConnection sqlOpen a.driverName a.dataSourceName with
    | .error err => .ret (a, some err)
    | .ok db => Adapter.createTable { a with db := some db }
  else
    match a.createDatabase with
    | .panics msg => .panics msg
    | .ret (a, some err) => .ret (a, some err)
    | .ret (a, none) =>
      if a.driverName = "postgres" then
        match openDBConnection sqlOpen a.driverName
            (a.dataSourceName ++ " dbname=" ++ a.databaseName) with
        | .error err => .ret (a, some err)
        | .ok db => Adapter.createTable { a with db := some db }
      else Adapter.createTable { a with db := none }

/-- Go `NewAdapter(driverName, dataSourceName, params...)`. -/
def NewAdapter (sqlOpen : String → String → Except String SqlDB)
    (driverName dataSourceName : String) (params : List Iface) : Go (Except String Adapter) :=
  match NewAdapter.resolveParams driverName dataSourceName params with
  | .panics msg => .panics msg
  | .ret (.error err) => .ret (.error err)
  | .ret (.ok a) =>
    match a.open sqlOpen with
    | .panics msg => .panics msg
    | .ret (_, some err) => .ret (.error err)
    | .ret (a, none) => .ret (.ok a)

/-- Go `NewAdapterByDBUseTableName(db, prefix, tableName)`. -/
def NewAdapterByDBUseTableName (db : Option SqlDB) (pfx : String) (tableName : String) :
    Go (Except String Adapter) :=
  let tableName := if tableName.length = 0 then defaultTableName else tableName
  let a : Adapter := { tablePrefix := pfx, tableName := tableName, driverName := "postgres" }
  let a := { a with db := db }
  match a.createTable with
  | .panics msg => .panics msg
  | .ret (_, some err) => .ret (.error err)
  | .ret (a, none) => .ret (.ok a)

/-- Go `NewAdapterByDB(db)`. -/
def NewAdapterByDB (db : Option SqlDB) : Go (Except String Adapter) :=
  NewAdapterByDBUseTableName db "" defaultTableName

/-- The effect of the closure returned by `(a *Adapter) casbinRuleTable` when
it is called. -/
def Adapter.casbinRuleTable (a : Adapter) : Adapter :=
  if a.tablePrefix ≠ "" then { a with tableName := a.tablePrefix ++ "_" ++ a.tableName } else a

/-! ## Row codec: decoding -/

/-- The engine model, seen through `persist.LoadPolicyLine`: the line texts
handed to it, oldest first. -/
abbrev Model := List String

/-- The line text that `loadPolicyLine` computes for a row and hands to
`persist.LoadPolicyLine`. -/
def loadPolicyLineText (line : CasbinRule) : String :=
  let p := [line.PType, line.V0, line.V1, line.V2, line.V3, line.V4, line.V5]
  if line.V5 ≠ "" then stringsJoin p ", "
  else if line.V4 ≠ "" then stringsJoin (sliceTo p 6) ", "
  else if line.V3 ≠ "" then stringsJoin (sliceTo p 5) ", "
  else if line.V2 ≠ "" then stringsJoin (sliceTo p 4) ", "
  else if line.V1 ≠ "" then stringsJoin (sliceTo p 3) ", "
  else if line.V0 ≠ "" then stringsJoin (sliceTo p 2) ", "
  else ""

/-- Go `loadPolicyLine(line, model)`: decode the row and feed the engine. -/
def loadPolicyLine (line : CasbinRule) (model : Model) : Model :=
  model ++ [loadPolicyLineText line]

/-- The loop `for rows.Next() { rows.Scan(...); loadPolicyLine(ruleline, model) }`
shared by `LoadPolicy` and `QueryFilter`: the error of `Scan` is not looked
at, and `ruleline` is one variable reused across rows. -/
def scanRows : List ResultRow → CasbinRule → Model → CasbinRule × Model
  | [], ruleline, model => (ruleline, model)
  | r :: rows, ruleline, model =>
    let ruleline := (rowsScan ruleline r).1
    scanRows rows ruleline (loadPolicyLine ruleline model)

/-- What the one row variable `ruleline` holds after `rows.Scan` has been run
on each of `rows` in turn, starting from `ruleline`: a destination that a
scan did not reach keeps the value the scans before left in it. -/
def rowVariable (ruleline : CasbinRule) (rows : List ResultRow) : CasbinRule :=
  rows.foldl (fun ruleline r => (rowsScan ruleline r).1) ruleline

/-- Go `(a *Adapter) LoadPolicy(model)`. -/
def Adapter.LoadPolicy (a : Adapter) (model : Model) : Go (Adapter × Model × Option String) :=
  let ruleline : CasbinRule := {}
  match a.db with
  | none => .panics "nil pointer dereference"
  | some db =>
    match db.Query ("select * from " ++ a.tableName ++ ";") [] with
    | (db, .error err) => .ret ({ a with db := some db }, model, some err)
    | (db, .ok rows) => .ret ({ a with db := some db }, (scanRows rows ruleline model).2, none)

/-! ## Filter query builder -/

/-- The variables of the placeholder loop of `QueryFilter`. -/
structure FilterBuild where
  comma : String := ""
  qparstr : List Iface := []
  deriving DecidableEq, Repr

/-- The loop `for a, value := range qvalue` of `QueryFilter`, from index `a`. -/
def QueryFilter.loop : Nat → List String → FilterBuild → FilterBuild
  | _, [], s => s
  | a, value :: rest, s =>
    let comma := if a ≠ 0 then s.comma ++ "," else s.comma
    let comma := comma ++ (" $" ++ strconvItoa (a + 1 : Nat))
    QueryFilter.loop (a + 1) rest { comma := comma, qparstr := s.qparstr ++ [.str value] }

/-- The statement `QueryFilter` hands to `a.db.Query`. -/
def QueryFilter.stmt (tableName filtersub : String) (qvalue : List String) : Stmt :=
  let s := QueryFilter.loop 0 qvalue {}
  { text := "select * from " ++ tableName ++ " where " ++ filtersub ++ " in (" ++ s.comma ++ ");"
    args := s.qparstr }

/-- Go `(a *Adapter) QueryFilter(filtersub, model, qvalue)`. -/
def Adapter.QueryFilter (a : Adapter) (filtersub : String) (model : Model)
    (qvalue : List String) : Go (Adapter × Model × Option String) :=
  let ruleline : CasbinRule := {}
  let q := QueryFilter.stmt a.tableName filtersub qvalue
  match a.db with
  | none => .panics "nil pointer dereference"
  | some db =>
    match db.Query q.text q.args with
    | (db, .error err) => .ret ({ a with db := some db }, model, some err)
    | (db, .ok rows) => .ret ({ a with db := some db }, (scanRows rows ruleline model).2, none)

/-- One block `if len(qvalue) > 0 { err := a.QueryFilter(...); if err != nil
{ return err } }` of `LoadFilteredPolicy`, run after the blocks before it. -/
def LoadFilteredPolicy.column (filtersub : String) (qvalue : List String)
    (sofar : Go (Adapter × Model × Option String)) : Go (Adapter × Model × Option String) :=
  match sofar with
  | .panics msg => .panics msg
  | .ret (a, model, some err) => .ret (a, model, some err)
  | .ret (a, model, none) =>
    if qvalue.length > 0 then a.QueryFilter filtersub model qvalue
    else .ret (a, model, none)

/-- Go `(a *Adapter) LoadFilteredPolicy(model, filter)`. -/
def Adapter.LoadFilteredPolicy (a : Adapter) (model : Model) (filter : Iface) :
    Go (Adapter × Model × Option String) :=
  match filter with
  | .filter filterValue =>
    let r := LoadFilteredPolicy.column "p_type" filterValue.PType (.ret (a, model, none))
    let r := LoadFilteredPolicy.column "v0" filterValue.V0 r
    let r := LoadFilteredPolicy.column "v1" filterValue.V1 r
    let r := LoadFilteredPolicy.column "v2" filterValue.V2 r
    let r := LoadFilteredPolicy.column "v3" filterValue.V3 r
    let r := LoadFilteredPolicy.column "v4" filterValue.V4 r
    let r := LoadFilteredPolicy.column "v5" filterValue.V5 r
    match r with
    | .panics msg => .panics msg
    | .ret (a, model, some err) => .ret (a, model, some err)
    | .ret (a, model, none) => .ret ({ a with isFiltered := true }, model, none)
  | _ => .ret (a, model, some "invalid filter type")

/-- Go `(a *Adapter) IsFiltered()`. -/
def Adapter.IsFiltered (a : Adapter) : Bool := a.isFiltered

/-- A load call made by the engine on an adapter. -/
inductive LoadCall where
  | loadPolicy
  | loadFilteredPolicy (filter : Iface)
  deriving DecidableEq, Repr

/-- Whether the call is a `LoadFilteredPolicy`. -/
def LoadCall.isFilteredLoad : LoadCall → Bool
  | .loadPolicy => false
  | .loadFilteredPolicy _ => true

/-- One load call on the adapter. -/
def Adapter.load (a : Adapter) (model : Model) : LoadCall → Go (Adapter × Model × Option String)
  | .loadPolicy => a.LoadPolicy model
  | .loadFilteredPolicy filter => a.LoadFilteredPolicy model filter

/-- A sequence of load calls on one adapter, the caller going on to the next
call whatever error the last one returned; with the adapter and the model at
the end come the errors returned, one entry per call. -/
def Adapter.loads : Adapter → Model → List LoadCall → Go (Adapter × Model × List (Option String))
  | a, model, [] => .ret (a, model, [])
  | a, model, c :: cs =>
    match a.load model c with
    | .panics msg => .panics msg
    | .ret (a, model, err) =>
      match Adapter.loads a model cs with
      | .panics msg => .panics msg
      | .ret (a, model, errs) => .ret (a, model, err :: errs)

/-! ## Row codec: encoding -/

/-- Go `(a *Adapter) savePolicyLine(ptype, rule)`. -/
def savePolicyLine (ptype : String) (rule : List String) : GoMap :=
  let qstr : GoMap := []
  let qstr := qstr.set "p_type" (.str ptype)
  let qstr := if h : rule.length > 0 then qstr.set "v0" (.str rule[0]) else qstr
  let qstr := if h : rule.length > 1 then qstr.set "v1" (.str rule[1]) else qstr
  let qstr := if h : rule.length > 2 then qstr.set "v2" (.str rule[2]) else qstr
  let qstr := if h : rule.length > 3 then qstr.set "v3" (.str rule[3]) else qstr
  let qstr := if h : rule.length > 4 then qstr.set "v4" (.str rule[4]) else qstr
  let qstr := if h : rule.length > 5 then qstr.set "v5" (.str rule[5]) else qstr
  qstr

/-! ## Insert builder -/

/-- The variables of the loop of `ExecInsertSqlRow`. -/
structure InsertBuild where
  qstrbt : String := ""
  valuestr : String := ""
  i : Nat := 0
  test : List Iface := []
  deriving DecidableEq, Repr

/-- One iteration of `for k, v := range arg` in `ExecInsertSqlRow`. -/
def ExecInsertSqlRow.step (s : InsertBuild) (kv : String × Iface) : InsertBuild :=
  if kv.2 = Iface.null ∨ kv.2 = Iface.str "" then s
  else
    let s := if s.i ≠ 0 then { s with qstrbt := s.qstrbt ++ ",", valuestr := s.valuestr ++ "," }
      else s
    let qstrbt := s.qstrbt ++ kv.1
    let i := s.i + 1
    { qstrbt := qstrbt, i := i, valuestr := s.valuestr ++ ("$" ++ strconvItoa (i : Nat)),
      test := s.test ++ [kv.2] }

/-- The statement `ExecInsertSqlRow` hands to `a.db.Exec`; `arg` lists the
entries of the map in the order the `range` loop visits them. -/
def ExecInsertSqlRow.stmt (arg : List (String × Iface)) : Stmt :=
  let s := arg.foldl ExecInsertSqlRow.step { qstrbt := "insert into casbin_rule(" }
  let qstrbt := s.qstrbt ++ ") values("
  { text := qstrbt ++ s.valuestr ++ ");", args := s.test }

/-- Go `(a *Adapter) ExecInsertSqlRow(arg)`; `arg` lists the entries of the map
in the order the `range` loop visits them. -/
def Adapter.ExecInsertSqlRow (a : Adapter) (arg : List (String × Iface)) :
    Go (Adapter × Option String) :=
  let q := ExecInsertSqlRow.stmt arg
  match a.db with
  | none => .panics "nil pointer dereference"
  | some db =>
    let (db, err) := db.Exec q.text q.args
    .ret ({ a with db := some db }, err)

/-- Go `(a *Adapter) AddPolicy(sec, ptype, rule)`; `order` is the order in which
the runtime ranges over a map. -/
def Adapter.AddPolicy (a : Adapter) (order : GoMap → List (String × Iface))
    (_sec : String) (ptype : String) (rule : List String) : Go (Adapter × Option String) :=
  let line := savePolicyLine ptype rule
  a.ExecInsertSqlRow (order line)

/-- The loop `for _, rule := range rules { line := a.savePolicyLine(ptype,
rule); if err := a.ExecInsertSqlRow(line); err != nil { return err } }`: the
body of `AddPolicies` and of each inner loop of `SavePolicy`. -/
def insertRules (order : GoMap → List (String × Iface)) (ptype : String) :
    List (List String) → Adapter → Go (Adapter × Option String)
  | [], a => .ret (a, none)
  | rule :: rules, a =>
    match a.ExecInsertSqlRow (order (savePolicyLine ptype rule)) with
    | .panics msg => .panics msg
    | .ret (a, some err) => .ret (a, some err)
    | .ret (a, none) => insertRules order ptype rules a

/-- Go `(a *Adapter) AddPolicies(sec, ptype, rules)`; `order` is the order in
which the runtime ranges over a map. -/
def Adapter.AddPolicies (a : Adapter) (order : GoMap → List (String × Iface))
    (_sec : String) (ptype : String) (rules : List (List String)) :
    Go (Adapter × Option String) :=
  insertRules order ptype rules a

/-- The engine model as `SavePolicy` reads it: the entries of `model["p"]` and
of `model["g"]` in the order they are ranged over, each a policy type with
the rules of its `ast.Policy`. -/
structure PolicySections where
  p : List (String × List (List String)) := []
  g : List (String × List (List String)) := []
  deriving DecidableEq, Repr

/-- One loop `for ptype, ast := range model[sec] { for _, rule := range
ast.Policy { ... } }` of `SavePolicy`. -/
def SavePolicy.assertions (order : GoMap → List (String × Iface)) :
    List (String × List (List String)) → Adapter → Go (Adapter × Option String)
  | [], a => .ret (a, none)
  | (ptype, policy) :: rest, a =>
    match insertRules order ptype policy a with
    | .panics msg => .panics msg
    | .ret (a, some err) => .ret (a, some err)
    | .ret (a, none) => SavePolicy.assertions order rest a

/-- The guard of the loop of `ExecInsertSqlRow`: the entry is written unless
its value is `nil` or the empty string. -/
def ExecInsertSqlRow.bound (kv : String × Iface) : Bool :=
  decide ¬(kv.2 = Iface.null ∨ kv.2 = Iface.str "")

/-- The column names `ExecInsertSqlRow` writes into the statement, in order. -/
def ExecInsertSqlRow.columns (arg : List (String × Iface)) : List String :=
  (arg.filter ExecInsertSqlRow.bound).map Prod.fst

/-- The placeholders `$1`, ..., `$k`. -/
def placeholders (k : Nat) : List String :=
  (List.range' 1 k).map (fun j => "$" ++ strconvItoa (j : Nat))

/-- The text of an insert statement naming the columns `cols`, with one
placeholder for each. -/
def insertText (cols : List String) : String :=
  "insert into casbin_rule(" ++ stringsJoin cols "," ++ ") values(" ++
    stringsJoin (placeholders cols.length) "," ++ ");"

/-- The columns a rule supplies, each with its value: `p_type` with the type
tag and `v<i>` with field `i`, for the first six fields at most. -/
def ruleColumns (ptype : String) (rule : List String) : List (String × String) :=
  ("p_type", ptype) :: List.zip ["v0", "v1", "v2", "v3", "v4", "v5"] rule

/-- What a column reads back as after an insert naming `cols` with arguments
`args`: the string bound to it, and the empty string when it was not named. -/
def readBack (cols : List String) (args : List Iface) (col : String) : String :=
  match (cols.zip args).lookup col with
  | some (.str s) => s
  | _ => ""

/-- The row, as `rows.Scan` delivers it, that an insert naming `cols` with
arguments `args` leaves in the store under the surrogate key `id`. -/
def storedRow (id : Nat) (cols : List String) (args : List Iface) : CasbinRule :=
  { ID := id
    PType := readBack cols args "p_type"
    V0 := readBack cols args "v0"
    V1 := readBack cols args "v1"
    V2 := readBack cols args "v2"
    V3 := readBack cols args "v3"
    V4 := readBack cols args "v4"
    V5 := readBack cols args "v5" }

/-! ## Delete builder -/

/-- The variables of `rawDelete` while the predicate is built. -/
structure DeleteBuild where
  queryStr : String
  queryArgs : List Iface
  i : Nat
  deriving DecidableEq, Repr

/-- One block `if len(line) > k { i++; queryStr += clause+strconv.Itoa(i);
queryArgs = append(queryArgs, line[k]) }` of `rawDelete`, `clause` being the
literal of that block, such as `" and v0 = $"`. -/
def rawDelete.column (line : List String) (k : Nat) (clause : String) (s : DeleteBuild) :
    DeleteBuild :=
  if h : line.length > k then
    let i := s.i + 1
    { i := i, queryStr := s.queryStr ++ (clause ++ strconvItoa (i : Nat)),
      queryArgs := s.queryArgs ++ [.str (line)[k]] }
  else s

/-- The predicate and the arguments `rawDelete` builds. -/
def rawDelete.build (ptype : String) (line : List String) : DeleteBuild :=
  let s : DeleteBuild := { queryStr := "p_type = $1", queryArgs := [] ++ [.str ptype], i := 1 }
  let s := rawDelete.column line 0 " and v0 = $" s
  let s := rawDelete.column line 1 " and v1 = $" s
  let s := rawDelete.column line 2 " and v2 = $" s
  let s := rawDelete.column line 3 " and v3 = $" s
  let s := rawDelete.column line 4 " and v4 = $" s
  let s := rawDelete.column line 5 " and v5 = $" s
  s

/-- The statement `rawDelete` hands to `db.Exec`. -/
def rawDelete.stmt (tableName ptype : String) (line : List String) : Stmt :=
  let s := rawDelete.build ptype line
  { text := "delete from " ++ tableName ++ " where " ++ s.queryStr ++ ";", args := s.queryArgs }

/-- Go `(a *Adapter) rawDelete(ptype, db, line)`. -/
def Adapter.rawDelete (a : Adapter) (ptype : String) (db : Option SqlDB) (line : List String) :
    Go (Option SqlDB × Option String) :=
  let q := rawDelete.stmt a.tableName ptype line
  match db with
  | none => .panics "nil pointer dereference"
  | some db =>
    let (db, err) := db.Exec q.text q.args
    .ret (some db, err)

/-- Go `(a *Adapter) RemovePolicy(sec, ptype, rule)`. -/
def Adapter.RemovePolicy (a : Adapter) (_sec : String) (ptype : String) (rule : List String) :
    Go (Adapter × Option String) :=
  match a.rawDelete ptype a.db rule with
  | .panics msg => .panics msg
  | .ret (db, err) => .ret ({ a with db := db }, err)

/-- One block `if fieldIndex <= k && k < fieldIndex+len(fieldValues) { line =
append(line, fieldValues[k-fieldIndex]) }` of `RemoveFilteredPolicy`. -/
def RemoveFilteredPolicy.column (fieldIndex : Int) (fieldValues : List String) (k : Int)
    (line : Go (List String)) : Go (List String) :=
  match line with
  | .panics msg => .panics msg
  | .ret line =>
    if fieldIndex ≤ k ∧ k < fieldIndex + fieldValues.length then
      match goIndex fieldValues (k - fieldIndex) with
      | .panics msg => .panics msg
      | .ret v => .ret (line ++ [v])
    else .ret line

/-- The `line` that `RemoveFilteredPolicy` passes to `rawDelete`. -/
def RemoveFilteredPolicy.line (fieldIndex : Int) (fieldValues : List String) : Go (List String) :=
  let line : Go (List String) := .ret []
  let line := RemoveFilteredPolicy.column fieldIndex fieldValues 0 line
  let line := RemoveFilteredPolicy.column fieldIndex fieldValues 1 line
  let line := RemoveFilteredPolicy.column fieldIndex fieldValues 2 line
  let line := RemoveFilteredPolicy.column fieldIndex fieldValues 3 line
  let line := RemoveFilteredPolicy.column fieldIndex fieldValues 4 line
  let line := RemoveFilteredPolicy.column fieldIndex fieldValues 5 line
  line

/-- Go `(a *Adapter) RemoveFilteredPolicy(sec, ptype, fieldIndex, fieldValues...)`. -/
def Adapter.RemoveFilteredPolicy (a : Adapter) (_sec : String) (ptype : String)
    (fieldIndex : Int) (fieldValues : List String) : Go (Adapter × Option String) :=
  match RemoveFilteredPolicy.line fieldIndex fieldValues with
  | .panics msg => .panics msg
  | .ret line =>
    match a.rawDelete ptype a.db line with
    | .panics msg => .panics msg
    | .ret (db, err) => .ret ({ a with db := db }, err)

/-- Go `(a *Adapter) RemovePolicies(sec, ptype, rules)`. -/
def Adapter.RemovePolicies (a : Adapter) (sec : String) (ptype : String) :
    List (List String) → Go (Adapter × Option String)
  | [] => .ret (a, none)
  | rule :: rules =>
    match a.rawDelete ptype a.db rule with
    | .panics msg => .panics msg
    | .ret (db, some err) => .ret ({ a with db := db }, some err)
    | .ret (db, none) => Adapter.RemovePolicies { a with db := db } sec ptype rules

/-- Go `(a *Adapter) SavePolicy(model)`; `order` is the order in which the
runtime ranges over a map. -/
def Adapter.SavePolicy (a : Adapter) (order : GoMap → List (String × Iface))
    (model : PolicySections) : Go (Adapter × Option String) :=
  match a.dropTable with
  | .panics msg => .panics msg
  | .ret (a, some err) => .ret (a, some err)
  | .ret (a, none) =>
    match a.createTable with
    | .panics msg => .panics msg
    | .ret (a, some err) => .ret (a, some err)
    | .ret (a, none) =>
      match SavePolicy.assertions order model.p a with
      | .panics msg => .panics msg
      | .ret (a, some err) => .ret (a, some err)
      | .ret (a, none) => SavePolicy.assertions order model.g a

/-- The text an insert naming the columns `cols` has when it is made into the
table `tableName`. -/
def insertTextInto (tableName : String) (cols : List String) : String :=
  "insert into " ++ tableName ++ "(" ++ stringsJoin cols "," ++ ") values(" ++
    stringsJoin (placeholders cols.length) "," ++ ");"

/-- The predicate `p_type = $1 and v0 = $2 ... and v<n-1> = $<n+1>`: the type
tag clause followed by one equality clause for each of the first `n` field
columns, clause `i` comparing `v<i>` with placeholder `$<i+2>`. -/
def deletePredicate (n : Nat) : String :=
  "p_type = $1" ++ String.join
    ((List.range n).map (fun i => " and v" ++ toString i ++ " = $" ++ strconvItoa (i + 2 : Nat)))

/-- The number of placeholders in a piece of statement text: its `$` signs. -/
def placeholderCount (text : String) : Nat := text.toList.count '$'

/-- The seven columns of a `Filter` in the order `LoadFilteredPolicy` goes
through them, each with its candidate list. -/
def Filter.columns (f : Filter) : List (String × List String) :=
  [("p_type", f.PType), ("v0", f.V0), ("v1", f.V1), ("v2", f.V2), ("v3", f.V3),
    ("v4", f.V4), ("v5", f.V5)]

/-- The queries `QueryFilter` builds for a list of columns, one for each column
whose candidate list is non-empty, in the order of the list. -/
def columnQueries (tableName : String) (cols : List (String × List String)) : List Stmt :=
  (cols.filter (fun c => decide (c.2.length > 0))).map
    (fun c => QueryFilter.stmt tableName c.1 c.2)

/-- The queries of a filtered load: those of the columns of the `Filter`. -/
def filterQueries (tableName : String) (f : Filter) : List Stmt :=
  columnQueries tableName f.columns

/-- The values at the positions `k - fieldIndex` for those `k` in `0..5` with
`fieldIndex ≤ k < fieldIndex + len(fieldValues)`, in increasing `k`. -/
def projectionWindow (fieldIndex : Int) (fieldValues : List String) : List String :=
  (([0, 1, 2, 3, 4, 5] : List Int).filter
      (fun k => decide (fieldIndex ≤ k ∧ k < fieldIndex + fieldValues.length))).map
    (fun k => fieldValues.getD (k - fieldIndex).toNat "")

/-- The value a 64-bit Go `int` holds after an addition or subtraction whose
exact result is `x`: two's-complement wrap-around. -/
def wrapInt64 (x : Int) : Int :=
  (x + 9223372036854775808) % 18446744073709551616 - 9223372036854775808

/-- The lines the scan loop feeds the engine for the `k`-th of the queries
`qs`, the store having received `hist` before the first of them: one line per
row the store answers that query with, decoded from the row variable, and no
line when it answers with an error. -/
def fedByQuery (db : SqlDB) (hist : List Stmt) (qs : List Stmt) (k : Nat) : List String :=
  match qs[k]? with
  | none => []
  | some q =>
    match db.queryAnswer (hist ++ qs.take k) q with
    | .error _ => []
    | .ok rows =>
      (List.range rows.length).map
        (fun i => loadPolicyLineText (rowVariable {} (rows.take (i + 1))))

/-- Whether, call by call, some `LoadFilteredPolicy` returned no error. -/
def someFilteredLoadSucceeded (calls : List LoadCall) (errs : List (Option String)) : Bool :=
  (calls.zip errs).any (fun ce => ce.1.isFilteredLoad && ce.2.isNone)

/-! ## Concrete stores and adapters -/

/-- A store that accepts every statement and answers every query with no rows. -/
def quietDB : SqlDB :=
  { execAnswer := fun _ _ => none, queryAnswer := fun _ _ => .ok [] }

/-- A store that rejects every statement and every query. -/
def failingDB : SqlDB :=
  { execAnswer := fun _ _ => some "pq: error", queryAnswer := fun _ _ => .error "pq: error" }

/-- A store that answers every query with two rows, the second of which stops
converting at the column `v1`. -/
def halfScannedDB : SqlDB :=
  { execAnswer := fun _ _ => none
    queryAnswer := fun _ _ =>
      .ok [{ vals := ⟨1, "p", "alice", "data1", "read", "", "", ""⟩ },
           { vals := ⟨2, "p", "bob", "", "", "", "", ""⟩, converts := 3 }] }

/-- An adapter on the default table with a live connection to `quietDB`. -/
def quietAdapter : Adapter :=
  { driverName := "postgres", databaseName := defaultDatabaseName,
    tableName := defaultTableName, dbSpecified := true, db := some quietDB }

/-- An adapter configured for the table `policy`, with a live connection to
`quietDB`. -/
def policyAdapter : Adapter :=
  { driverName := "postgres", databaseName := defaultDatabaseName,
    tableName := "policy", dbSpecified := true, db := some quietDB }

/-! ## Auxiliary facts -/

theorem intercalate_go_append (p acc sep : String) (l : List String) :
    String.intercalate.go (p ++ acc) sep l = p ++ String.intercalate.go acc sep l := by
  induction l generalizing acc with
  | nil => rfl
  | cons a l ih =>
    simp only [String.intercalate.go]
    rw [String.append_assoc, String.append_assoc, ih, String.append_assoc]

theorem lookup_of_mem {l : List (String × Iface)} (hnd : (l.map Prod.fst).Nodup)
    {k : String} {v : Iface} (hmem : (k, v) ∈ l) : l.lookup k = some v := by
  induction l with
  | nil => simp at hmem
  | cons e l ih =>
    obtain ⟨k1, v1⟩ := e
    simp only [List.map_cons, List.nodup_cons] at hnd
    rcases List.mem_cons.mp hmem with h | h
    · cases h
      simp
    · have hne : k ≠ k1 := by
        rintro rfl
        exact hnd.1 (List.mem_map.mpr ⟨(k, v), h, rfl⟩)
      rw [List.lookup_cons]
      have : (k == k1) = false := by simpa using hne
      rw [this]
      exact ih hnd.2 h

theorem lookup_perm {l₁ l₂ : List (String × Iface)} (hp : l₁.Perm l₂)
    (hnd : (l₂.map Prod.fst).Nodup) (k : String) : l₁.lookup k = l₂.lookup k := by
  have hnd1 : (l₁.map Prod.fst).Nodup := (hp.map Prod.fst).nodup_iff.mpr hnd
  cases h : l₂.lookup k with
  | none =>
    rw [List.lookup_eq_none_iff] at h ⊢
    intro e he
    exact h e (hp.subset he)
  | some v =>
    have hmem : (k, v) ∈ l₂ := by
      rw [List.lookup_eq_some_iff] at h
      obtain ⟨a, b, rfl, -⟩ := h
      simp
    exact lookup_of_mem hnd1 (hp.symm.subset hmem)

theorem insert_step_skip (s : InsertBuild) (kv : String × Iface)
    (h : ExecInsertSqlRow.bound kv = false) : ExecInsertSqlRow.step s kv = s := by
  have h1 : kv.2 = Iface.null ∨ kv.2 = Iface.str "" := by
    by_contra hc
    simp [ExecInsertSqlRow.bound, hc] at h
  simp [ExecInsertSqlRow.step, h1]

theorem insert_fold_pos (arg : List (String × Iface)) (s : InsertBuild) (hs : s.i ≠ 0) :
    arg.foldl ExecInsertSqlRow.step s =
      { qstrbt := String.intercalate.go s.qstrbt "," (ExecInsertSqlRow.columns arg)
        valuestr := String.intercalate.go s.valuestr ","
          ((List.range' (s.i + 1) (ExecInsertSqlRow.columns arg).length).map
            (fun j => "$" ++ strconvItoa (j : Nat)))
        i := s.i + (ExecInsertSqlRow.columns arg).length
        test := s.test ++ (arg.filter ExecInsertSqlRow.bound).map Prod.snd } := by
  induction arg generalizing s with
  | nil => simp [ExecInsertSqlRow.columns, String.intercalate.go]
  | cons kv arg ih =>
    rw [List.foldl_cons]
    cases hb : ExecInsertSqlRow.bound kv with
    | false =>
      rw [insert_step_skip s kv hb, ih s hs]
      simp [ExecInsertSqlRow.columns, hb]
    | true =>
      have h1 : ¬(kv.2 = Iface.null ∨ kv.2 = Iface.str "") := by
        simpa [ExecInsertSqlRow.bound] using hb
      rw [ih _ (by simp [ExecInsertSqlRow.step, h1])]
      simp [ExecInsertSqlRow.step, h1, hs, ExecInsertSqlRow.columns, hb,
        String.intercalate.go, List.range'_succ, Nat.add_assoc, Nat.add_comm 1]

theorem insert_fold_zero (arg : List (String × Iface)) (s : InsertBuild) (hs : s.i = 0) :
    arg.foldl ExecInsertSqlRow.step s =
      { qstrbt := s.qstrbt ++ stringsJoin (ExecInsertSqlRow.columns arg) ","
        valuestr := s.valuestr ++
          stringsJoin (placeholders (ExecInsertSqlRow.columns arg).length) ","
        i := (ExecInsertSqlRow.columns arg).length
        test := s.test ++ (arg.filter ExecInsertSqlRow.bound).map Prod.snd } := by
  induction arg generalizing s with
  | nil =>
    obtain ⟨q, v, i, t⟩ := s
    simp at hs
    simp [ExecInsertSqlRow.columns, stringsJoin, String.intercalate, placeholders, hs]
  | cons kv arg ih =>
    rw [List.foldl_cons]
    cases hb : ExecInsertSqlRow.bound kv with
    | false =>
      rw [insert_step_skip s kv hb, ih s hs]
      simp [ExecInsertSqlRow.columns, hb]
    | true =>
      have h1 : ¬(kv.2 = Iface.null ∨ kv.2 = Iface.str "") := by
        simpa [ExecInsertSqlRow.bound] using hb
      rw [insert_fold_pos _ _ (by simp [ExecInsertSqlRow.step, h1])]
      simp [ExecInsertSqlRow.step, h1, hs, ExecInsertSqlRow.columns, hb, stringsJoin,
        String.intercalate, placeholders, List.range'_succ, intercalate_go_append,
        Nat.add_comm 1]

theorem insert_stmt_eq (arg : List (String × Iface)) :
    ExecInsertSqlRow.stmt arg =
      { text := insertText (ExecInsertSqlRow.columns arg)
        args := (arg.filter ExecInsertSqlRow.bound).map Prod.snd } := by
  simp [ExecInsertSqlRow.stmt, insert_fold_zero, insertText]

theorem savePolicyLine_eq (ptype : String) (rule : List String) :
    savePolicyLine ptype rule =
      (ruleColumns ptype rule).map (fun e => (e.1, Iface.str e.2)) := by
  rcases rule with _ | ⟨a, _ | ⟨b, _ | ⟨c, _ | ⟨d, _ | ⟨e, _ | ⟨f, rest⟩⟩⟩⟩⟩⟩ <;>
    simp [savePolicyLine, GoMap.set, ruleColumns]

theorem ruleColumns_keys_nodup (ptype : String) (rule : List String) :
    ((ruleColumns ptype rule).map Prod.fst).Nodup := by
  rcases rule with _ | ⟨a, _ | ⟨b, _ | ⟨c, _ | ⟨d, _ | ⟨e, _ | ⟨f, rest⟩⟩⟩⟩⟩⟩ <;>
    simp [ruleColumns]

theorem savePolicyLine_keys_nodup (ptype : String) (rule : List String) :
    ((savePolicyLine ptype rule).map Prod.fst).Nodup := by
  rw [savePolicyLine_eq, List.map_map]
  exact ruleColumns_keys_nodup ptype rule

theorem savePolicyLine_filter_bound (ptype : String) (rule : List String) :
    (savePolicyLine ptype rule).filter ExecInsertSqlRow.bound =
      ((ruleColumns ptype rule).filter (fun e => decide (e.2 ≠ ""))).map
        (fun e => (e.1, Iface.str e.2)) := by
  rw [savePolicyLine_eq, List.filter_map]
  congr 2
  funext e
  simp [ExecInsertSqlRow.bound]

theorem zip_fst_snd (l : List (String × Iface)) :
    (l.map Prod.fst).zip (l.map Prod.snd) = l := by
  induction l with
  | nil => rfl
  | cons e l ih => simp [ih]

theorem readBack_filter (l : List (String × String)) (hnd : (l.map Prod.fst).Nodup)
    (col : String) :
    (match ((l.filter (fun e => decide (e.2 ≠ ""))).map
        (fun e => (e.1, Iface.str e.2))).lookup col with
      | some (.str s) => s
      | _ => "") = (l.lookup col).getD "" := by
  induction l with
  | nil => simp
  | cons e l ih =>
    obtain ⟨k, v⟩ := e
    simp only [List.map_cons, List.nodup_cons] at hnd
    by_cases hv : v = ""
    · subst hv
      simp only [List.filter_cons, ne_eq, not_true_eq_false, decide_False, Bool.false_eq_true,
        if_false]
      rw [ih hnd.2, List.lookup_cons]
      by_cases hk : col = k
      · subst hk
        have : l.lookup col = none := by
          rw [List.lookup_eq_none_iff]
          intro e he
          have hc : col ≠ e.1 := by
            intro hc
            exact hnd.1 (List.mem_map.mpr ⟨e, he, hc.symm⟩)
          simpa using hc
        simp [this]
      · have : (col == k) = false := by simpa using hk
        simp [this]
    · by_cases hk : col = k
      · subst hk
        simp [List.filter_cons, hv]
      · have : (col == k) = false := by simpa using hk
        simp only [List.filter_cons, ne_eq, hv, not_false_eq_true, decide_True, if_true,
          List.map_cons, List.lookup_cons, this]
        exact ih hnd.2

theorem readBack_insert (order : GoMap → List (String × Iface))
    (horder : ∀ m, (order m).Perm m) (ptype : String) (rule : List String) (col : String) :
    readBack (ExecInsertSqlRow.columns (order (savePolicyLine ptype rule)))
        (ExecInsertSqlRow.stmt (order (savePolicyLine ptype rule))).args col
      = ((ruleColumns ptype rule).lookup col).getD "" := by
  have hp : ((order (savePolicyLine ptype rule)).filter ExecInsertSqlRow.bound).Perm
      ((savePolicyLine ptype rule).filter ExecInsertSqlRow.bound) := (horder _).filter _
  have hnd : (((savePolicyLine ptype rule).filter ExecInsertSqlRow.bound).map Prod.fst).Nodup :=
    ((List.filter_sublist _).map Prod.fst).nodup (savePolicyLine_keys_nodup ptype rule)
  rw [insert_stmt_eq]
  simp only [readBack, ExecInsertSqlRow.columns, zip_fst_snd]
  rw [lookup_perm hp hnd, savePolicyLine_filter_bound]
  exact readBack_filter _ (ruleColumns_keys_nodup ptype rule) col

theorem ite_ne_of {c : Prop} [Decidable c] {a b x : Char} (ha : a ≠ x) (hb : b ≠ x) :
    (if c then a else b) ≠ x := by
  split <;> assumption

theorem digitChar_ne_dollar (k : Nat) : Nat.digitChar k ≠ '$' := by
  unfold Nat.digitChar
  repeat refine ite_ne_of (by decide) ?_
  decide

theorem toDigitsCore_no_dollar (b fuel : Nat) : ∀ (n : Nat) (ds : List Char),
    '$' ∉ ds → '$' ∉ Nat.toDigitsCore b fuel n ds := by
  induction fuel with
  | zero => intro n ds h; simpa [Nat.toDigitsCore] using h
  | succ fuel ih =>
    intro n ds h
    have hd : '$' ∉ Nat.digitChar (n % b) :: ds := by
      simp only [List.mem_cons, not_or]
      exact ⟨fun hc => digitChar_ne_dollar _ hc.symm, h⟩
    rw [Nat.toDigitsCore]
    split_ifs
    · exact hd
    · exact ih _ _ hd

theorem placeholderCount_itoa (j : Nat) : placeholderCount (strconvItoa (j : Nat)) = 0 := by
  have h : (strconvItoa (j : Nat)).toList = Nat.toDigits 10 j := rfl
  rw [placeholderCount, h, List.count_eq_zero]
  exact toDigitsCore_no_dollar 10 _ _ _ (by simp)

theorem placeholderCount_append (a b : String) :
    placeholderCount (a ++ b) = placeholderCount a + placeholderCount b := by
  simp [placeholderCount, String.toList, List.count_append]

theorem placeholderCount_go (sep : String) (hsep : placeholderCount sep = 0) (l : List String)
    (hl : ∀ x ∈ l, placeholderCount x = 1) (acc : String) :
    placeholderCount (String.intercalate.go acc sep l) = placeholderCount acc + l.length := by
  induction l generalizing acc with
  | nil => simp [String.intercalate.go]
  | cons x l ih =>
    rw [String.intercalate.go, ih (fun y hy => hl y (List.mem_cons_of_mem _ hy)),
      placeholderCount_append, placeholderCount_append, hsep, hl x (List.mem_cons_self _ _)]
    simp
    omega

theorem placeholderCount_join (l : List String) (hl : ∀ x ∈ l, placeholderCount x = 1) :
    placeholderCount (stringsJoin l ",") = l.length := by
  cases l with
  | nil => decide
  | cons x l =>
    rw [stringsJoin, String.intercalate,
      placeholderCount_go "," (by decide) l (fun y hy => hl y (List.mem_cons_of_mem _ hy)),
      hl x (List.mem_cons_self _ _)]
    simp
    omega
theorem placeholderCount_in_list (n : Nat) :
    placeholderCount
        (stringsJoin ((List.range' 1 n).map (fun j => " $" ++ strconvItoa (j : Nat))) ",")
      = n := by
  rw [placeholderCount_join]
  · simp
  · intro x hx
    obtain ⟨j, -, rfl⟩ := List.mem_map.mp hx
    rw [placeholderCount_append, placeholderCount_itoa]
    decide

theorem filter_loop_pos (a : Nat) (ha : a ≠ 0) (rest : List String) (s : FilterBuild) :
    QueryFilter.loop a rest s =
      { comma := String.intercalate.go s.comma ","
          ((List.range' (a + 1) rest.length).map (fun j => " $" ++ strconvItoa (j : Nat)))
        qparstr := s.qparstr ++ rest.map Iface.str } := by
  induction rest generalizing a s with
  | nil => simp [QueryFilter.loop, String.intercalate.go]
  | cons v rest ih =>
    rw [QueryFilter.loop, ih (a + 1) (by omega)]
    simp [ha, String.intercalate.go, List.range'_succ]

theorem filter_loop_zero (qvalue : List String) :
    QueryFilter.loop 0 qvalue {} =
      { comma := stringsJoin
          ((List.range' 1 qvalue.length).map (fun j => " $" ++ strconvItoa (j : Nat))) ","
        qparstr := qvalue.map Iface.str } := by
  cases qvalue with
  | nil => simp [QueryFilter.loop, stringsJoin, String.intercalate]
  | cons v rest =>
    rw [QueryFilter.loop, filter_loop_pos 1 (by omega)]
    simp [stringsJoin, String.intercalate, List.range'_succ]

theorem LoadPolicy_ret (a a1 : Adapter) (model m1 : Model) (e : Option String)
    (h : a.LoadPolicy model = .ret (a1, m1, e)) :
    a1.isFiltered = a.isFiltered ∧ a1.db.isSome = true := by
  unfold Adapter.LoadPolicy at h
  cases hdb : a.db with
  | none => simp [hdb] at h
  | some db =>
    simp only [hdb] at h
    split at h <;> simp at h <;> obtain ⟨rfl, -, -⟩ := h <;> simp

theorem LoadPolicy_total (a : Adapter) (db : SqlDB) (model : Model) (hdb : a.db = some db) :
    ∃ a1 m1 e, a.LoadPolicy model = .ret (a1, m1, e) := by
  unfold Adapter.LoadPolicy
  simp only [hdb]
  split <;> exact ⟨_, _, _, rfl⟩

theorem QueryFilter_ret (a a1 : Adapter) (filtersub : String) (model m1 : Model)
    (qvalue : List String) (e : Option String)
    (h : a.QueryFilter filtersub model qvalue = .ret (a1, m1, e)) :
    a1.isFiltered = a.isFiltered ∧ a1.db.isSome = true := by
  unfold Adapter.QueryFilter at h
  cases hdb : a.db with
  | none => simp [hdb] at h
  | some db =>
    simp only [hdb] at h
    split at h <;> simp at h <;> obtain ⟨rfl, -, -⟩ := h <;> simp

theorem QueryFilter_total (a : Adapter) (db : SqlDB) (filtersub : String) (model : Model)
    (qvalue : List String) (hdb : a.db = some db) :
    ∃ a1 m1 e, a.QueryFilter filtersub model qvalue = .ret (a1, m1, e) := by
  unfold Adapter.QueryFilter
  simp only [hdb]
  split <;> exact ⟨_, _, _, rfl⟩

theorem QueryFilter_answered (a : Adapter) (db : SqlDB) (filtersub : String) (model : Model)
    (qvalue : List String) (hdb : a.db = some db)
    (hq : ∀ hist q, ∃ rows, db.queryAnswer hist q = .ok rows) :
    ∃ a1 m1 db1, a.QueryFilter filtersub model qvalue = .ret (a1, m1, none) ∧
      a1.db = some db1 ∧ db1.queryAnswer = db.queryAnswer := by
  unfold Adapter.QueryFilter
  simp only [hdb, SqlDB.Query]
  obtain ⟨rows, hrows⟩ := hq db.issued
    ⟨(QueryFilter.stmt a.tableName filtersub qvalue).text,
      (QueryFilter.stmt a.tableName filtersub qvalue).args⟩
  rw [hrows]
  exact ⟨_, _, _, rfl, rfl, rfl⟩

theorem column_ret (flag : Bool) (filtersub : String) (qvalue : List String)
    (sofar : Go (Adapter × Model × Option String))
    (hs : ∀ a1 m1 e, sofar = .ret (a1, m1, e) → a1.isFiltered = flag) :
    ∀ a1 m1 e, LoadFilteredPolicy.column filtersub qvalue sofar = .ret (a1, m1, e) →
      a1.isFiltered = flag := by
  intro a1 m1 e h
  unfold LoadFilteredPolicy.column at h
  split at h
  · simp at h
  · exact hs _ _ _ h
  · rename_i a0 m0
    split at h
    · rw [(QueryFilter_ret _ _ _ _ _ _ _ h).1]
      exact hs _ _ _ rfl
    · exact hs _ _ _ h

theorem column_total (filtersub : String) (qvalue : List String)
    (sofar : Go (Adapter × Model × Option String))
    (hs : ∃ a1 m1 e, sofar = .ret (a1, m1, e) ∧ a1.db.isSome = true) :
    ∃ a1 m1 e, LoadFilteredPolicy.column filtersub qvalue sofar = .ret (a1, m1, e) ∧
      a1.db.isSome = true := by
  obtain ⟨a0, m0, e0, rfl, hlive⟩ := hs
  unfold LoadFilteredPolicy.column
  cases e0 with
  | some err => exact ⟨_, _, _, rfl, hlive⟩
  | none =>
    simp only
    split
    · obtain ⟨db, hdb⟩ := Option.isSome_iff_exists.mp hlive
      obtain ⟨a1, m1, e, h⟩ := QueryFilter_total a0 db filtersub m0 qvalue hdb
      exact ⟨a1, m1, e, h, (QueryFilter_ret _ _ _ _ _ _ _ h).2⟩
    · exact ⟨_, _, _, rfl, hlive⟩

theorem column_answered (qa : List Stmt → Stmt → Except String (List ResultRow))
    (hq : ∀ hist q, ∃ rows, qa hist q = .ok rows) (filtersub : String) (qvalue : List String)
    (sofar : Go (Adapter × Model × Option String))
    (hs : ∃ a1 m1 db1, sofar = .ret (a1, m1, none) ∧ a1.db = some db1 ∧ db1.queryAnswer = qa) :
    ∃ a1 m1 db1, LoadFilteredPolicy.column filtersub qvalue sofar = .ret (a1, m1, none) ∧
      a1.db = some db1 ∧ db1.queryAnswer = qa := by
  obtain ⟨a0, m0, db0, rfl, hdb, hqa⟩ := hs
  unfold LoadFilteredPolicy.column
  simp only
  split
  · obtain ⟨a1, m1, db1, h, hdb1, hqa1⟩ :=
      QueryFilter_answered a0 db0 filtersub m0 qvalue hdb (by rw [hqa]; exact hq)
    exact ⟨a1, m1, db1, h, hdb1, hqa1.trans hqa⟩
  · exact ⟨_, _, _, rfl, hdb, hqa⟩

theorem LoadFilteredPolicy_ret (a a1 : Adapter) (model m1 : Model) (filter : Iface)
    (e : Option String) (h : a.LoadFilteredPolicy model filter = .ret (a1, m1, e)) :
    (e = none → a1.isFiltered = true) ∧ (e ≠ none → a1.isFiltered = a.isFiltered) := by
  unfold Adapter.LoadFilteredPolicy at h
  cases filter with
  | filter f =>
    simp only at h
    have h0 : ∀ a1 m1 e, (Go.ret (a, model, (none : Option String))) = .ret (a1, m1, e) →
        a1.isFiltered = a.isFiltered := by
      intro a1 m1 e h
      cases h
      rfl
    have h7 := column_ret a.isFiltered "v5" f.V5 _
      (column_ret a.isFiltered "v4" f.V4 _
        (column_ret a.isFiltered "v3" f.V3 _
          (column_ret a.isFiltered "v2" f.V2 _
            (column_ret a.isFiltered "v1" f.V1 _
              (column_ret a.isFiltered "v0" f.V0 _
                (column_ret a.isFiltered "p_type" f.PType _ h0))))))
    split at h
    · simp at h
    · rename_i a2 m2 err hr
      simp only [Go.ret.injEq, Prod.mk.injEq] at h
      obtain ⟨rfl, rfl, rfl⟩ := h
      exact ⟨by simp, fun _ => h7 _ _ _ hr⟩
    · simp only [Go.ret.injEq, Prod.mk.injEq] at h
      obtain ⟨rfl, rfl, rfl⟩ := h
      exact ⟨fun _ => rfl, by simp⟩
  | null | str _ | bool _ | filterPtr _ | other _ =>
    simp only [Go.ret.injEq, Prod.mk.injEq] at h
    obtain ⟨rfl, rfl, rfl⟩ := h
    exact ⟨by simp, fun _ => rfl⟩

theorem LoadFilteredPolicy_total (a : Adapter) (db : SqlDB) (model : Model) (filter : Iface)
    (hdb : a.db = some db) :
    ∃ a1 m1 e, a.LoadFilteredPolicy model filter = .ret (a1, m1, e) ∧ a1.db.isSome = true := by
  unfold Adapter.LoadFilteredPolicy
  cases filter with
  | filter f =>
    simp only
    have h0 : ∃ a1 m1 e, (Go.ret (a, model, (none : Option String))) = .ret (a1, m1, e) ∧
        a1.db.isSome = true := ⟨a, model, none, rfl, by simp [hdb]⟩
    obtain ⟨a7, m7, e7, h7, hlive⟩ := column_total "v5" f.V5 _
      (column_total "v4" f.V4 _
        (column_total "v3" f.V3 _
          (column_total "v2" f.V2 _
            (column_total "v1" f.V1 _
              (column_total "v0" f.V0 _
                (column_total "p_type" f.PType _ h0))))))
    rw [h7]
    cases e7 with
    | some err => exact ⟨_, _, _, rfl, hlive⟩
    | none => exact ⟨_, _, _, rfl, hlive⟩
  | null | str _ | bool _ | filterPtr _ | other _ =>
    exact ⟨_, _, _, rfl, by simp [hdb]⟩

theorem LoadFilteredPolicy_answered (a : Adapter) (db : SqlDB) (model : Model) (f : Filter)
    (hdb : a.db = some db) (hq : ∀ hist q, ∃ rows, db.queryAnswer hist q = .ok rows) :
    ∃ a1 m1, a.LoadFilteredPolicy model (.filter f) = .ret (a1, m1, none) := by
  unfold Adapter.LoadFilteredPolicy
  simp only
  have h0 : ∃ a1 m1 db1, (Go.ret (a, model, (none : Option String))) = .ret (a1, m1, none) ∧
      a1.db = some db1 ∧ db1.queryAnswer = db.queryAnswer := ⟨a, model, db, rfl, hdb, rfl⟩
  obtain ⟨a7, m7, db7, h7, -, -⟩ := column_answered db.queryAnswer hq "v5" f.V5 _
    (column_answered db.queryAnswer hq "v4" f.V4 _
      (column_answered db.queryAnswer hq "v3" f.V3 _
        (column_answered db.queryAnswer hq "v2" f.V2 _
          (column_answered db.queryAnswer hq "v1" f.V1 _
            (column_answered db.queryAnswer hq "v0" f.V0 _
              (column_answered db.queryAnswer hq "p_type" f.PType _ h0))))))
  rw [h7]
  exact ⟨_, _, rfl⟩

theorem createTable_flag (a a1 : Adapter) (e : Option String)
    (h : a.createTable = .ret (a1, e)) : a1.isFiltered = a.isFiltered := by
  unfold Adapter.createTable at h
  split at h
  · cases hdb : a.db with
    | none => simp [hdb] at h
    | some db =>
      simp only [hdb, SqlDB.Exec, Go.ret.injEq, Prod.mk.injEq] at h
      obtain ⟨rfl, -⟩ := h
      rfl
  · simp only [Go.ret.injEq, Prod.mk.injEq] at h
    obtain ⟨rfl, -⟩ := h
    rfl

theorem createDatabase_flag (a a1 : Adapter) (e : Option String)
    (h : a.createDatabase = .ret (a1, e)) : a1.isFiltered = a.isFiltered := by
  unfold Adapter.createDatabase at h
  split at h
  · cases hdb : a.db with
    | none => simp [hdb] at h
    | some db =>
      simp only [hdb, SqlDB.Exec, Go.ret.injEq, Prod.mk.injEq] at h
      obtain ⟨rfl, -⟩ := h
      rfl
  · simp only [Go.ret.injEq, Prod.mk.injEq] at h
    obtain ⟨rfl, -⟩ := h
    rfl

theorem open_flag (sqlOpen : String → String → Except String SqlDB) (a a1 : Adapter)
    (e : Option String) (h : a.open sqlOpen = .ret (a1, e)) : a1.isFiltered = a.isFiltered := by
  unfold Adapter.open at h
  split at h
  · split at h
    · simp only [Go.ret.injEq, Prod.mk.injEq] at h
      obtain ⟨rfl, -⟩ := h
      rfl
    · exact (createTable_flag _ _ _ h).trans rfl
  · split at h
    · simp at h
    · rename_i a2 err hcd
      simp only [Go.ret.injEq, Prod.mk.injEq] at h
      obtain ⟨rfl, -⟩ := h
      exact createDatabase_flag _ _ _ hcd
    · rename_i a2 hcd
      have h2 := createDatabase_flag _ _ _ hcd
      split at h
      · split at h
        · simp only [Go.ret.injEq, Prod.mk.injEq] at h
          obtain ⟨rfl, -⟩ := h
          exact h2
        · exact (createTable_flag _ _ _ h).trans h2
      · exact (createTable_flag _ _ _ h).trans h2

theorem resolveParams_flag (driverName dataSourceName : String) (params : List Iface)
    (a : Adapter) (h : NewAdapter.resolveParams driverName dataSourceName params = .ret (.ok a)) :
    a.isFiltered = false := by
  unfold NewAdapter.resolveParams at h
  simp only at h
  split at h
  · simp only [Go.ret.injEq, Except.ok.injEq] at h
    subst h
    rfl
  all_goals (repeat' split at h) <;>
    first
      | (simp only [Go.ret.injEq, Except.ok.injEq] at h; subst h; rfl)
      | simp at h

theorem NewAdapter_flag (sqlOpen : String → String → Except String SqlDB)
    (driverName dataSourceName : String) (params : List Iface) (a : Adapter)
    (h : NewAdapter sqlOpen driverName dataSourceName params = .ret (.ok a)) :
    a.isFiltered = false := by
  unfold NewAdapter at h
  split at h
  · simp at h
  · simp at h
  · rename_i a0 hr
    have h0 := resolveParams_flag _ _ _ _ hr
    split at h
    · simp at h
    · simp at h
    · rename_i a1 ho
      simp only [Go.ret.injEq, Except.ok.injEq] at h
      subst h
      exact (open_flag _ _ _ _ ho).trans h0

theorem NewAdapterByDBUseTableName_flag (db : Option SqlDB) (pfx tableName : String)
    (a : Adapter) (h : NewAdapterByDBUseTableName db pfx tableName = .ret (.ok a)) :
    a.isFiltered = false := by
  unfold NewAdapterByDBUseTableName at h
  simp only at h
  split at h
  · simp at h
  · simp at h
  · rename_i a1 hc
    simp only [Go.ret.injEq, Except.ok.injEq] at h
    subst h
    exact createTable_flag _ _ _ hc

theorem load_flag (a a1 : Adapter) (model m1 : Model) (c : LoadCall) (e : Option String)
    (h : a.load model c = .ret (a1, m1, e)) :
    a1.isFiltered = (a.isFiltered || (c.isFilteredLoad && e.isNone)) := by
  cases c with
  | loadPolicy =>
    simp [LoadCall.isFilteredLoad, (LoadPolicy_ret _ _ _ _ _ h).1]
  | loadFilteredPolicy filter =>
    have h2 := LoadFilteredPolicy_ret _ _ _ _ _ _ h
    cases e with
    | none => simp [LoadCall.isFilteredLoad, h2.1 rfl]
    | some err => simp [LoadCall.isFilteredLoad, h2.2 (by simp)]

theorem load_total (a : Adapter) (model : Model) (c : LoadCall) (hdb : a.db.isSome = true) :
    ∃ a1 m1 e, a.load model c = .ret (a1, m1, e) ∧ a1.db.isSome = true := by
  obtain ⟨db, hdb⟩ := Option.isSome_iff_exists.mp hdb
  cases c with
  | loadPolicy =>
    obtain ⟨a1, m1, e, h⟩ := LoadPolicy_total a db model hdb
    exact ⟨a1, m1, e, h, (LoadPolicy_ret _ _ _ _ _ h).2⟩
  | loadFilteredPolicy filter => exact LoadFilteredPolicy_total a db model filter hdb

theorem loads_flag (calls : List LoadCall) :
    ∀ (a a1 : Adapter) (model m1 : Model) (errs : List (Option String)),
      a.loads model calls = .ret (a1, m1, errs) →
      errs.length = calls.length ∧
        a1.isFiltered = (a.isFiltered || someFilteredLoadSucceeded calls errs) := by
  induction calls with
  | nil =>
    intro a a1 model m1 errs h
    simp only [Adapter.loads, Go.ret.injEq, Prod.mk.injEq] at h
    obtain ⟨rfl, -, rfl⟩ := h
    simp [someFilteredLoadSucceeded]
  | cons c cs ih =>
    intro a a1 model m1 errs h
    rw [Adapter.loads] at h
    split at h
    · simp at h
    · rename_i a2 m2 err hl
      split at h
      · simp at h
      · rename_i a3 m3 errs3 hls
        simp only [Go.ret.injEq, Prod.mk.injEq] at h
        obtain ⟨rfl, -, rfl⟩ := h
        obtain ⟨hlen, hflag⟩ := ih _ _ _ _ _ hls
        refine ⟨by simp [hlen], ?_⟩
        rw [hflag, load_flag _ _ _ _ _ _ hl]
        simp [someFilteredLoadSucceeded, Bool.or_assoc]

theorem loads_total (calls : List LoadCall) :
    ∀ (a : Adapter) (model : Model), a.db.isSome = true →
      ∃ a1 m1 errs, a.loads model calls = .ret (a1, m1, errs) := by
  induction calls with
  | nil => exact fun a model _ => ⟨a, model, [], rfl⟩
  | cons c cs ih =>
    intro a model hdb
    obtain ⟨a2, m2, e, hl, hlive⟩ := load_total a model c hdb
    obtain ⟨a1, m1, errs, hls⟩ := ih a2 m2 hlive
    exact ⟨a1, m1, e :: errs, by rw [Adapter.loads, hl]; simp only [hls]⟩

theorem scanRows_append (rows : List ResultRow) :
    ∀ (ruleline : CasbinRule) (model : Model),
      (scanRows rows ruleline model).2 = model ++ (scanRows rows ruleline []).2 ∧
        (scanRows rows ruleline []).2.length = rows.length := by
  induction rows with
  | nil => intro ruleline model; simp [scanRows]
  | cons r rows ih =>
    intro ruleline model
    simp only [scanRows, loadPolicyLine]
    obtain ⟨h1, h2⟩ := ih (rowsScan ruleline r).1 (model ++ [loadPolicyLineText (rowsScan ruleline r).1])
    obtain ⟨h3, -⟩ := ih (rowsScan ruleline r).1 ([] ++ [loadPolicyLineText (rowsScan ruleline r).1])
    rw [h1, h3]
    simp [h2]

theorem rowsScan_converts (ruleline : CasbinRule) (r : ResultRow) (h : 8 ≤ r.converts) :
    rowsScan ruleline r = (r.vals, none) := by
  have h0 : 0 < r.converts := by omega
  have h1 : 1 < r.converts := by omega
  have h2 : 2 < r.converts := by omega
  have h3 : 3 < r.converts := by omega
  have h4 : 4 < r.converts := by omega
  have h5 : 5 < r.converts := by omega
  have h6 : 6 < r.converts := by omega
  have h7 : 7 < r.converts := by omega
  simp [rowsScan, h, h0, h1, h2, h3, h4, h5, h6, h7]

theorem rowVariable_cons (ruleline : CasbinRule) (r : ResultRow) (rows : List ResultRow) :
    rowVariable ruleline (r :: rows) = rowVariable (rowsScan ruleline r).1 rows := rfl

theorem rowVariable_take_succ (ruleline : CasbinRule) (rows : List ResultRow) (i : Nat)
    (r : ResultRow) (hr : rows[i]? = some r) :
    rowVariable ruleline (rows.take (i + 1))
      = (rowsScan (rowVariable ruleline (rows.take i)) r).1 := by
  rw [List.take_succ, hr]
  simp [rowVariable, List.foldl_append]

theorem scanRows_lines (rows : List ResultRow) :
    ∀ (ruleline : CasbinRule) (model : Model),
      scanRows rows ruleline model =
        (rowVariable ruleline rows,
          model ++ (List.range rows.length).map
            (fun i => loadPolicyLineText (rowVariable ruleline (rows.take (i + 1))))) := by
  induction rows with
  | nil => intro ruleline model; simp [scanRows, rowVariable]
  | cons r rows ih =>
    intro ruleline model
    simp only [scanRows, loadPolicyLine]
    rw [ih, List.length_cons, List.range_succ_eq_map]
    simp [rowVariable_cons, rowVariable, Function.comp_def]

theorem scanRows_converts (rows : List ResultRow) (hall : ∀ r ∈ rows, 8 ≤ r.converts) :
    ∀ ruleline : CasbinRule,
      (scanRows rows ruleline []).2 = rows.map (fun r => loadPolicyLineText r.vals) := by
  induction rows with
  | nil => intro ruleline; simp [scanRows]
  | cons r rows ih =>
    intro ruleline
    have hr := rowsScan_converts ruleline r (hall r (List.mem_cons_self _ _))
    simp only [scanRows, loadPolicyLine, hr]
    rw [(scanRows_append rows r.vals _).1, ih (fun x hx => hall x (List.mem_cons_of_mem _ hx))]
    simp

theorem columns_fold_error (cols : List (String × List String)) (a : Adapter) (model : Model)
    (e : String) :
    cols.foldl (fun r c => LoadFilteredPolicy.column c.1 c.2 r) (.ret (a, model, some e))
      = .ret (a, model, some e) := by
  induction cols with
  | nil => rfl
  | cons c cols ih => simpa [LoadFilteredPolicy.column] using ih

theorem QueryFilter_eq (a : Adapter) (db : SqlDB) (filtersub : String) (model : Model)
    (qvalue : List String) (hdb : a.db = some db) :
    a.QueryFilter filtersub model qvalue =
      match db.queryAnswer db.issued (QueryFilter.stmt a.tableName filtersub qvalue) with
      | .error err =>
        .ret ({ a with db := some { db with issued := db.issued ++
                  [QueryFilter.stmt a.tableName filtersub qvalue] } }, model, some err)
      | .ok rows =>
        .ret ({ a with db := some { db with issued := db.issued ++
                  [QueryFilter.stmt a.tableName filtersub qvalue] } },
          (scanRows rows {} model).2, none) := by
  simp only [Adapter.QueryFilter, hdb, SqlDB.Query]
  cases db.queryAnswer db.issued
      ⟨(QueryFilter.stmt a.tableName filtersub qvalue).text,
        (QueryFilter.stmt a.tableName filtersub qvalue).args⟩ <;> rfl

theorem column_head (a : Adapter) (filtersub : String) (model : Model) (qvalue : List String) :
    LoadFilteredPolicy.column filtersub qvalue (.ret (a, model, none)) =
      if qvalue.length > 0 then a.QueryFilter filtersub model qvalue
      else .ret (a, model, none) := rfl

theorem fedByQuery_succ (db : SqlDB) (hist : List Stmt) (q : Stmt) (qs : List Stmt) (k : Nat) :
    fedByQuery db hist (q :: qs) (k + 1)
      = fedByQuery { db with issued := hist ++ [q] } (hist ++ [q]) qs k := by
  simp [fedByQuery]

theorem columns_fold (cols : List (String × List String)) :
    ∀ (a : Adapter) (db : SqlDB) (model : Model), a.db = some db →
      ∃ m1 err db1 n,
        cols.foldl (fun r c => LoadFilteredPolicy.column c.1 c.2 r) (.ret (a, model, none))
          = .ret ({ a with db := some db1 }, m1, err) ∧
        db1.queryAnswer = db.queryAnswer ∧
        db1.issued = db.issued ++ (columnQueries a.tableName cols).take n ∧
        m1 = model ++ (List.range n).flatMap
          (fedByQuery db db.issued (columnQueries a.tableName cols)) ∧
        (err = none → n = (columnQueries a.tableName cols).length ∧
          ∀ (k : Nat) (q : Stmt), (columnQueries a.tableName cols)[k]? = some q →
            ∃ rows, db.queryAnswer (db.issued ++ (columnQueries a.tableName cols).take k) q
              = .ok rows) ∧
        (∀ e, err = some e → ∃ k q,
          n = k + 1 ∧
          (columnQueries a.tableName cols)[k]? = some q ∧
          db.queryAnswer (db.issued ++ (columnQueries a.tableName cols).take k) q
            = .error e ∧
          ∀ (j : Nat) (qj : Stmt), j < k → (columnQueries a.tableName cols)[j]? = some qj →
            ∃ rows, db.queryAnswer (db.issued ++ (columnQueries a.tableName cols).take j) qj
              = .ok rows) := by
  induction cols with
  | nil =>
    intro a db model hdb
    refine ⟨model, none, db, 0, ?_, rfl, by simp [columnQueries], by simp,
      by simp [columnQueries], by simp⟩
    simp only [List.foldl_nil]
    congr
    obtain ⟨_, _, _, _, _, _, _, _⟩ := a
    simp only at hdb
    simp [hdb]
  | cons c cols ih =>
    intro a db model hdb
    obtain ⟨col, qv⟩ := c
    by_cases hq : qv.length > 0
    · have hcq : columnQueries a.tableName ((col, qv) :: cols)
          = QueryFilter.stmt a.tableName col qv :: columnQueries a.tableName cols := by
        simp [columnQueries, hq]
      rw [hcq, List.foldl_cons, column_head, if_pos hq, QueryFilter_eq a db col model qv hdb]
      cases hans : db.queryAnswer db.issued (QueryFilter.stmt a.tableName col qv) with
      | error e =>
        simp only
        rw [columns_fold_error]
        refine ⟨model, some e, _, 1, rfl, rfl, by simp, ?_, by simp, ?_⟩
        · simp [fedByQuery, hans]
        · intro e1 he1
          cases he1
          exact ⟨0, QueryFilter.stmt a.tableName col qv, rfl, by simp, by simpa using hans,
            by simp⟩
      | ok rows =>
        simp only
        obtain ⟨m1, err, db1, n, hfold, hqa, hiss, hm1, hnone, hsome⟩ :=
          ih { a with db := some { db with issued := db.issued ++
                [QueryFilter.stmt a.tableName col qv] } }
            _ (scanRows rows {} model).2 rfl
        refine ⟨m1, err, db1, n + 1, hfold, hqa, ?_, ?_, ?_, ?_⟩
        · rw [hiss]
          simp
        · rw [hm1, scanRows_lines, List.range_succ_eq_map, List.flatMap_cons, List.flatMap_map]
          have h0 : fedByQuery db db.issued
              (QueryFilter.stmt a.tableName col qv :: columnQueries a.tableName cols) 0
              = (List.range rows.length).map
                  (fun i => loadPolicyLineText (rowVariable {} (rows.take (i + 1)))) := by
            simp [fedByQuery, hans]
          rw [h0, List.append_assoc]
          congr 2
          apply List.flatMap_congr
          intro k _
          exact (fedByQuery_succ db db.issued _ _ k).symm
        · intro he
          obtain ⟨hn, hall⟩ := hnone he
          refine ⟨by simp [hn], ?_⟩
          intro k q hk
          cases k with
          | zero =>
            simp only [List.getElem?_cons_zero, Option.some.injEq] at hk
            subst hk
            exact ⟨rows, by simpa using hans⟩
          | succ k =>
            obtain ⟨rows1, hrows1⟩ := hall k q (by simpa using hk)
            exact ⟨rows1, by simpa using hrows1⟩
        · intro e he
          obtain ⟨k, q, hn, hk, hans1, hprev⟩ := hsome e he
          refine ⟨k + 1, q, by rw [hn], by simpa using hk, by simpa using hans1, ?_⟩
          intro j qj hj hqj
          cases j with
          | zero =>
            simp only [List.getElem?_cons_zero, Option.some.injEq] at hqj
            subst hqj
            exact ⟨rows, by simpa using hans⟩
          | succ j =>
            obtain ⟨rows1, hrows1⟩ := hprev j qj (by omega) (by simpa using hqj)
            exact ⟨rows1, by simpa using hrows1⟩
    · have hcq : columnQueries a.tableName ((col, qv) :: cols)
          = columnQueries a.tableName cols := by
        simp [columnQueries, hq]
      rw [hcq, List.foldl_cons, column_head, if_neg hq]
      exact ih a db model hdb

theorem columnQueries_shape (tableName : String) (cols : List (String × List String))
    (q : Stmt) (hq : q ∈ columnQueries tableName cols) :
    ∃ col cands, (col, cands) ∈ cols ∧ cands ≠ [] ∧
      q = { text := "select * from " ++ tableName ++ " where " ++ col ++ " in (" ++
              stringsJoin
                ((List.range' 1 cands.length).map (fun j => " $" ++ strconvItoa (j : Nat))) "," ++
              ");"
            args := cands.map Iface.str } := by
  simp only [columnQueries, List.mem_map, List.mem_filter] at hq
  obtain ⟨⟨col, cands⟩, ⟨hmem, hne⟩, rfl⟩ := hq
  refine ⟨col, cands, hmem, ?_, ?_⟩
  · rintro rfl
    simp at hne
  · simp [QueryFilter.stmt, filter_loop_zero]

theorem LoadFilteredPolicy_fold (a : Adapter) (model : Model) (f : Filter) :
    a.LoadFilteredPolicy model (.filter f) =
      match f.columns.foldl (fun r c => LoadFilteredPolicy.column c.1 c.2 r)
          (.ret (a, model, none)) with
      | .panics msg => .panics msg
      | .ret (a, model, some err) => .ret (a, model, some err)
      | .ret (a, model, none) => .ret ({ a with isFiltered := true }, model, none) := rfl

theorem goIndex_in_window (fieldIndex : Int) (fieldValues : List String) (k : Int)
    (h1 : fieldIndex ≤ k) (h2 : k < fieldIndex + fieldValues.length) :
    goIndex fieldValues (k - fieldIndex)
      = .ret (fieldValues.getD (k - fieldIndex).toNat "") := by
  have h : 0 ≤ k - fieldIndex ∧ k - fieldIndex < fieldValues.length := by omega
  simp [goIndex, h]

theorem projection_column (fieldIndex : Int) (fieldValues : List String) (k : Int)
    (acc : List String) :
    RemoveFilteredPolicy.column fieldIndex fieldValues k (.ret acc) =
      .ret (acc ++
        if fieldIndex ≤ k ∧ k < fieldIndex + fieldValues.length then
          [fieldValues.getD (k - fieldIndex).toNat ""]
        else []) := by
  by_cases h : fieldIndex ≤ k ∧ k < fieldIndex + fieldValues.length
  · simp [RemoveFilteredPolicy.column, h, goIndex_in_window fieldIndex fieldValues k h.1 h.2]
  · simp [RemoveFilteredPolicy.column, h]

theorem filter_map_cons (p : Int → Prop) [DecidablePred p] (f : Int → String) (k : Int)
    (ks : List Int) :
    ((k :: ks).filter (fun k => decide (p k))).map f
      = (if p k then [f k] else []) ++ (ks.filter (fun k => decide (p k))).map f := by
  by_cases h : p k <;> simp [h]

theorem projection_line (fieldIndex : Int) (fieldValues : List String) :
    RemoveFilteredPolicy.line fieldIndex fieldValues
      = .ret (projectionWindow fieldIndex fieldValues) := by
  simp only [RemoveFilteredPolicy.line, projection_column, projectionWindow]
  congr 1
  rw [filter_map_cons (fun k => fieldIndex ≤ k ∧ k < fieldIndex + fieldValues.length),
    filter_map_cons (fun k => fieldIndex ≤ k ∧ k < fieldIndex + fieldValues.length),
    filter_map_cons (fun k => fieldIndex ≤ k ∧ k < fieldIndex + fieldValues.length),
    filter_map_cons (fun k => fieldIndex ≤ k ∧ k < fieldIndex + fieldValues.length),
    filter_map_cons (fun k => fieldIndex ≤ k ∧ k < fieldIndex + fieldValues.length),
    filter_map_cons (fun k => fieldIndex ≤ k ∧ k < fieldIndex + fieldValues.length)]
  simp only [List.filter_nil, List.map_nil, List.append_assoc, List.nil_append, List.append_nil]

theorem window_beyond (fieldIndex : Int) (fieldValues : List String) (h : 6 ≤ fieldIndex) :
    projectionWindow fieldIndex fieldValues = [] := by
  have h0 : ¬ fieldIndex ≤ 0 := by omega
  have h1 : ¬ fieldIndex ≤ 1 := by omega
  have h2 : ¬ fieldIndex ≤ 2 := by omega
  have h3 : ¬ fieldIndex ≤ 3 := by omega
  have h4 : ¬ fieldIndex ≤ 4 := by omega
  have h5 : ¬ fieldIndex ≤ 5 := by omega
  simp [projectionWindow, List.filter_cons, h0, h1, h2, h3, h4, h5]

theorem window_take (fieldIndex : Int) (fieldValues : List String) (h0 : 0 ≤ fieldIndex)
    (h5 : fieldIndex ≤ 5) :
    projectionWindow fieldIndex fieldValues
      = fieldValues.take (min fieldValues.length (6 - fieldIndex).toNat) := by
  by_cases hlen : 6 ≤ fieldValues.length
  · have hw : projectionWindow fieldIndex fieldValues
        = (([0, 1, 2, 3, 4, 5] : List Int).filter (fun k => decide (fieldIndex ≤ k))).map
            (fun k => fieldValues.getD (k - fieldIndex).toNat "") := by
      unfold projectionWindow
      congr 1
      apply List.filter_congr
      intro k hk
      have hk5 : k ≤ 5 := by
        simp only [List.mem_cons, List.mem_singleton, List.not_mem_nil, or_false] at hk
        omega
      have hlt : k < fieldIndex + fieldValues.length := by omega
      simp [hlt]
    rw [hw]
    rcases fieldValues with _ | ⟨a, _ | ⟨b, _ | ⟨c, _ | ⟨d, _ | ⟨e, _ | ⟨f, rest⟩⟩⟩⟩⟩⟩
    all_goals first
      | (exfalso; simp only [List.length_cons, List.length_nil] at hlen; omega)
      | (interval_cases fieldIndex <;> simp [List.filter_cons])
  · rcases fieldValues with _ | ⟨a, _ | ⟨b, _ | ⟨c, _ | ⟨d, _ | ⟨e, _ | ⟨f, rest⟩⟩⟩⟩⟩⟩
    all_goals first
      | (exfalso; simp only [List.length_cons, List.length_nil] at hlen; omega)
      | (interval_cases fieldIndex <;> simp [projectionWindow, List.filter_cons])

theorem window_first_six (vs : List String) :
    (([0, 1, 2, 3, 4, 5] : List Int).filter (fun k => decide (k < (vs.length : Int)))).map
        (fun k => vs.getD k.toNat "")
      = vs.take 6 := by
  rcases vs with _ | ⟨a, _ | ⟨b, _ | ⟨c, _ | ⟨d, _ | ⟨e, _ | ⟨f, rest⟩⟩⟩⟩⟩⟩
  case cons.cons.cons.cons.cons.cons =>
    have hw : (([0, 1, 2, 3, 4, 5] : List Int).filter
          (fun k => decide (k < ((a :: b :: c :: d :: e :: f :: rest).length : Int))))
        = [0, 1, 2, 3, 4, 5] := by
      rw [List.filter_eq_self]
      intro k hk
      simp only [List.mem_cons, List.mem_singleton, List.not_mem_nil, or_false] at hk
      simp only [List.length_cons, decide_eq_true_eq]
      omega
    rw [hw]
    simp
  all_goals simp [List.filter_cons]

theorem window_negative (fieldIndex : Int) (fieldValues : List String) (h : fieldIndex < 0) :
    projectionWindow fieldIndex fieldValues = (fieldValues.drop (-fieldIndex).toNat).take 6 := by
  rw [← window_first_six (fieldValues.drop (-fieldIndex).toNat)]
  unfold projectionWindow
  have hf : (([0, 1, 2, 3, 4, 5] : List Int).filter
        (fun k => decide (fieldIndex ≤ k ∧ k < fieldIndex + fieldValues.length)))
      = (([0, 1, 2, 3, 4, 5] : List Int).filter
        (fun k => decide (k < ((fieldValues.drop (-fieldIndex).toNat).length : Int)))) := by
    apply List.filter_congr
    intro k hk
    simp only [List.mem_cons, List.mem_singleton, List.not_mem_nil, or_false] at hk
    simp only [List.length_drop, decide_eq_decide]
    omega
  rw [hf]
  apply List.map_congr_left
  intro k hk
  have hk0 : 0 ≤ k := by
    have := (List.mem_filter.mp hk).1
    simp only [List.mem_cons, List.mem_singleton, List.not_mem_nil, or_false] at this
    omega
  have hidx : (k - fieldIndex).toNat = (-fieldIndex).toNat + k.toNat := by omega
  simp only [List.getD_eq_getElem?_getD, List.getElem?_drop, hidx]

theorem guard_wrap (fieldIndex len k : Int) (hlo : -9223372036854775808 ≤ fieldIndex)
    (hhi : fieldIndex ≤ 9223372036854775807) (hlen0 : 0 ≤ len)
    (hlen : len ≤ 9223372036854775801) (hk0 : 0 ≤ k) (hk5 : k ≤ 5) :
    ((fieldIndex ≤ k ∧ k < wrapInt64 (fieldIndex + len)) ↔
        (fieldIndex ≤ k ∧ k < fieldIndex + len)) ∧
      ((fieldIndex ≤ k ∧ k < fieldIndex + len) → wrapInt64 (k - fieldIndex) = k - fieldIndex) := by
  unfold wrapInt64
  omega

theorem rawDelete_build_take (ptype : String) (rule : List String) :
    rawDelete.build ptype (rule.take 6) = rawDelete.build ptype rule := by
  rcases rule with _ | ⟨a, _ | ⟨b, _ | ⟨c, _ | ⟨d, _ | ⟨e, _ | ⟨f, rest⟩⟩⟩⟩⟩⟩ <;>
    simp [rawDelete.build, rawDelete.column]

theorem placeholderCount_placeholders (n : Nat) :
    placeholderCount (stringsJoin (placeholders n) ",") = n := by
  rw [placeholderCount_join]
  · simp [placeholders]
  · intro x hx
    obtain ⟨j, -, rfl⟩ := List.mem_map.mp hx
    rw [placeholderCount_append, placeholderCount_itoa]
    decide

theorem string_cancel (p t c r : String) (h : p ++ t ++ r = p ++ c ++ r) : t = c := by
  have hd := congrArg String.data h
  simp only [String.data_append, List.append_assoc, List.append_cancel_left_eq,
    List.append_cancel_right_eq] at hd
  exact String.ext hd

theorem insertText_literal (cols : List String) :
    insertText cols = insertTextInto "casbin_rule" cols := by
  simp only [insertText, insertTextInto]
  rfl

theorem insertTextInto_inj (t c : String) (cols : List String)
    (h : insertTextInto t cols = insertTextInto c cols) : t = c := by
  simp only [insertTextInto, String.append_assoc] at h
  have h2 := string_cancel "insert into " t c
    ("(" ++ (stringsJoin cols "," ++
      (") values(" ++ (stringsJoin (placeholders cols.length) "," ++ ");"))))
  simp only [String.append_assoc] at h2
  exact h2 h

theorem ExecInsertSqlRow_eq (a : Adapter) (db : SqlDB) (arg : List (String × Iface))
    (hdb : a.db = some db) :
    a.ExecInsertSqlRow arg =
      .ret ({ a with db := some { db with issued := db.issued ++
                [⟨insertText (ExecInsertSqlRow.columns arg),
                  (arg.filter ExecInsertSqlRow.bound).map Prod.snd⟩] } },
        db.execAnswer db.issued
          ⟨insertText (ExecInsertSqlRow.columns arg),
            (arg.filter ExecInsertSqlRow.bound).map Prod.snd⟩) := by
  simp [Adapter.ExecInsertSqlRow, hdb, insert_stmt_eq, SqlDB.Exec]

theorem insertRules_issued (order : GoMap → List (String × Iface)) (ptype : String)
    (rules : List (List String)) :
    ∀ (a : Adapter) (db : SqlDB), a.db = some db →
      ∃ err db1 qs,
        insertRules order ptype rules a = .ret ({ a with db := some db1 }, err) ∧
        db1.issued = db.issued ++ qs ∧
        ∀ q ∈ qs, ∃ cols, q.text = insertText cols := by
  induction rules with
  | nil =>
    intro a db hdb
    refine ⟨none, db, [], ?_, by simp, by simp⟩
    simp only [insertRules]
    congr
    obtain ⟨_, _, _, _, _, _, _, _⟩ := a
    simp only at hdb
    simp [hdb]
  | cons rule rules ih =>
    intro a db hdb
    rw [insertRules, ExecInsertSqlRow_eq a db _ hdb]
    cases hans : db.execAnswer db.issued
        ⟨insertText (ExecInsertSqlRow.columns (order (savePolicyLine ptype rule))),
          ((order (savePolicyLine ptype rule)).filter ExecInsertSqlRow.bound).map Prod.snd⟩ with
    | some e =>
      exact ⟨some e, _, [_], rfl, rfl, by simp⟩
    | none =>
      simp only
      obtain ⟨err, db1, qs, hrun, hiss, hqs⟩ :=
        ih { a with db := some { db with issued := db.issued ++
              [⟨insertText (ExecInsertSqlRow.columns (order (savePolicyLine ptype rule))),
                ((order (savePolicyLine ptype rule)).filter ExecInsertSqlRow.bound).map
                  Prod.snd⟩] } } _ rfl
      refine ⟨err, db1,
        ⟨insertText (ExecInsertSqlRow.columns (order (savePolicyLine ptype rule))),
          ((order (savePolicyLine ptype rule)).filter ExecInsertSqlRow.bound).map Prod.snd⟩ :: qs,
        hrun, by rw [hiss]; simp, ?_⟩
      intro q hq
      rcases List.mem_cons.mp hq with rfl | hq
      · exact ⟨_, rfl⟩
      · exact hqs q hq

theorem assertions_issued (order : GoMap → List (String × Iface))
    (secs : List (String × List (List String))) :
    ∀ (a : Adapter) (db : SqlDB), a.db = some db →
      ∃ err db1 qs,
        SavePolicy.assertions order secs a = .ret ({ a with db := some db1 }, err) ∧
        db1.issued = db.issued ++ qs ∧
        ∀ q ∈ qs, ∃ cols, q.text = insertText cols := by
  induction secs with
  | nil =>
    intro a db hdb
    refine ⟨none, db, [], ?_, by simp, by simp⟩
    simp only [SavePolicy.assertions]
    congr
    obtain ⟨_, _, _, _, _, _, _, _⟩ := a
    simp only at hdb
    simp [hdb]
  | cons sec secs ih =>
    intro a db hdb
    obtain ⟨ptype, policy⟩ := sec
    obtain ⟨err, db1, qs, hrun, hiss, hqs⟩ := insertRules_issued order ptype policy a db hdb
    rw [SavePolicy.assertions, hrun]
    cases err with
    | some e => exact ⟨some e, db1, qs, rfl, hiss, hqs⟩
    | none =>
      simp only
      obtain ⟨err2, db2, qs2, hrun2, hiss2, hqs2⟩ := ih { a with db := some db1 } db1 rfl
      refine ⟨err2, db2, qs ++ qs2, hrun2, by rw [hiss2, hiss]; simp, ?_⟩
      intro q hq
      rcases List.mem_append.mp hq with hq | hq
      · exact hqs q hq
      · exact hqs2 q hq

theorem dropTable_eq (a : Adapter) (db : SqlDB) (hdb : a.db = some db) :
    a.dropTable =
      .ret ({ a with db := some { db with issued := db.issued ++
                [⟨"DROP TABLE " ++ a.tableName ++ ";", []⟩] } },
        db.execAnswer db.issued ⟨"DROP TABLE " ++ a.tableName ++ ";", []⟩) := by
  simp [Adapter.dropTable, hdb, SqlDB.Exec]

theorem createTable_eq (a : Adapter) (db : SqlDB) (hdb : a.db = some db)
    (hdriver : a.driverName = "postgres") :
    a.createTable =
      .ret ({ a with db := some { db with issued := db.issued ++
                [⟨createTableText a.tableName, []⟩] } },
        db.execAnswer db.issued ⟨createTableText a.tableName, []⟩) := by
  simp [Adapter.createTable, hdb, hdriver, SqlDB.Exec]

theorem createTable_other (a : Adapter) (hdriver : a.driverName ≠ "postgres") :
    a.createTable = .ret (a, none) := by
  simp [Adapter.createTable, hdriver]

theorem SavePolicy_issued (a : Adapter) (db : SqlDB) (order : GoMap → List (String × Iface))
    (model : PolicySections) (hdb : a.db = some db) :
    ∃ err db1 qs,
      a.SavePolicy order model = .ret ({ a with db := some db1 }, err) ∧
      db1.issued = db.issued ++ ⟨"DROP TABLE " ++ a.tableName ++ ";", []⟩ :: qs ∧
      ∀ q ∈ qs, q = ⟨createTableText a.tableName, []⟩ ∨ ∃ cols, q.text = insertText cols := by
  rw [Adapter.SavePolicy, dropTable_eq a db hdb]
  cases db.execAnswer db.issued ⟨"DROP TABLE " ++ a.tableName ++ ";", []⟩ with
  | some e => exact ⟨some e, _, [], rfl, rfl, by simp⟩
  | none =>
    simp only
    by_cases hdriver : a.driverName = "postgres"
    · rw [createTable_eq
        { a with db := some { db with issued :=
            db.issued ++ [⟨"DROP TABLE " ++ a.tableName ++ ";", []⟩] } } _ rfl hdriver]
      simp only
      cases db.execAnswer (db.issued ++ [⟨"DROP TABLE " ++ a.tableName ++ ";", []⟩])
          ⟨createTableText a.tableName, []⟩ with
      | some e =>
        exact ⟨some e, _, [⟨createTableText a.tableName, []⟩], rfl, by simp, by simp⟩
      | none =>
        simp only
        obtain ⟨err1, db1, qs1, hrun1, hiss1, hqs1⟩ := assertions_issued order model.p
          { a with db := some { db with issued :=
              db.issued ++ [⟨"DROP TABLE " ++ a.tableName ++ ";", []⟩] ++
                [⟨createTableText a.tableName, []⟩] } } _ rfl
        rw [hrun1]
        cases err1 with
        | some e =>
          refine ⟨some e, db1, ⟨createTableText a.tableName, []⟩ :: qs1, rfl,
            by rw [hiss1]; simp, ?_⟩
          intro q hq
          rcases List.mem_cons.mp hq with rfl | hq
          · exact Or.inl rfl
          · exact Or.inr (hqs1 q hq)
        | none =>
          simp only
          obtain ⟨err2, db2, qs2, hrun2, hiss2, hqs2⟩ := assertions_issued order model.g
            { a with db := some db1 } db1 rfl
          refine ⟨err2, db2, ⟨createTableText a.tableName, []⟩ :: (qs1 ++ qs2), hrun2,
            by rw [hiss2, hiss1]; simp, ?_⟩
          intro q hq
          rcases List.mem_cons.mp hq with rfl | hq
          · exact Or.inl rfl
          · rcases List.mem_append.mp hq with hq | hq
            · exact Or.inr (hqs1 q hq)
            · exact Or.inr (hqs2 q hq)
    · rw [createTable_other
        { a with db := some { db with issued :=
            db.issued ++ [⟨"DROP TABLE " ++ a.tableName ++ ";", []⟩] } } hdriver]
      simp only
      obtain ⟨err1, db1, qs1, hrun1, hiss1, hqs1⟩ := assertions_issued order model.p
        { a with db := some { db with issued :=
            db.issued ++ [⟨"DROP TABLE " ++ a.tableName ++ ";", []⟩] } } _ rfl
      rw [hrun1]
      cases err1 with
      | some e =>
        exact ⟨some e, db1, qs1, rfl, by rw [hiss1]; simp, fun q hq => Or.inr (hqs1 q hq)⟩
      | none =>
        simp only
        obtain ⟨err2, db2, qs2, hrun2, hiss2, hqs2⟩ := assertions_issued order model.g
          { a with db := some db1 } db1 rfl
        refine ⟨err2, db2, qs1 ++ qs2, hrun2, by rw [hiss2, hiss1]; simp, ?_⟩
        intro q hq
        rcases List.mem_append.mp hq with hq | hq
        · exact Or.inr (hqs1 q hq)
        · exact Or.inr (hqs2 q hq)

/-! ## Properties: decoding -/

/-- C1 (as stated) fails: the row with fields `["a","b","","d","",""]` does not
decode to the type tag followed by the longest unbroken prefix of non-empty
fields, `p, a, b`; the line handed to the engine is `p, a, b, , d`, which
keeps the empty third field and the field after the gap. -/
theorem loadPolicyLine_gap_counterexample :
    loadPolicyLine ⟨0, "p", "a", "b", "", "d", "", ""⟩ [] = ["p, a, b, , d"] ∧
    loadPolicyLine ⟨0, "p", "a", "b", "", "d", "", ""⟩ [] ≠
      [stringsJoin ("p" :: ["a", "b", "", "d", "", ""].takeWhile (fun f => f ≠ "")) ", "] := by
  decide

/-- C1 (amended): for a row whose last non-empty field is field `k`, the line
handed to the engine is the type tag followed by field 0 up to field `k`
(empty fields before field `k` included), joined with `", "`; when moreover
no field before field `k` is empty, that is the type tag followed by the
longest unbroken prefix of non-empty fields. -/
theorem loadPolicyLine_upto_last_nonempty (line : CasbinRule) (model : Model) (k : Nat)
    (hk : k < 6) (hne : line.fields.getD k "" ≠ "")
    (hrest : ∀ j, k < j → j < 6 → line.fields.getD j "" = "") :
    loadPolicyLine line model
        = model ++ [stringsJoin (line.PType :: line.fields.take (k + 1)) ", "] ∧
      ((∀ j, j < k → line.fields.getD j "" ≠ "") →
        loadPolicyLine line model
          = model ++ [stringsJoin
              (line.PType :: line.fields.takeWhile (fun f => f ≠ "")) ", "]) := by
  obtain ⟨id, pt, v0, v1, v2, v3, v4, v5⟩ := line
  have e1 : k < 1 → v1 = "" := fun h => by
    simpa [CasbinRule.fields] using hrest 1 h (by norm_num)
  have e2 : k < 2 → v2 = "" := fun h => by
    simpa [CasbinRule.fields] using hrest 2 h (by norm_num)
  have e3 : k < 3 → v3 = "" := fun h => by
    simpa [CasbinRule.fields] using hrest 3 h (by norm_num)
  have e4 : k < 4 → v4 = "" := fun h => by
    simpa [CasbinRule.fields] using hrest 4 h (by norm_num)
  have e5 : k < 5 → v5 = "" := fun h => by
    simpa [CasbinRule.fields] using hrest 5 h (by norm_num)
  have n0 : (∀ j, j < k → [v0, v1, v2, v3, v4, v5].getD j "" ≠ "") → 0 < k → v0 ≠ "" :=
    fun hall h => by simpa using hall 0 h
  have n1 : (∀ j, j < k → [v0, v1, v2, v3, v4, v5].getD j "" ≠ "") → 1 < k → v1 ≠ "" :=
    fun hall h => by simpa using hall 1 h
  have n2 : (∀ j, j < k → [v0, v1, v2, v3, v4, v5].getD j "" ≠ "") → 2 < k → v2 ≠ "" :=
    fun hall h => by simpa using hall 2 h
  have n3 : (∀ j, j < k → [v0, v1, v2, v3, v4, v5].getD j "" ≠ "") → 3 < k → v3 ≠ "" :=
    fun hall h => by simpa using hall 3 h
  have n4 : (∀ j, j < k → [v0, v1, v2, v3, v4, v5].getD j "" ≠ "") → 4 < k → v4 ≠ "" :=
    fun hall h => by simpa using hall 4 h
  clear hrest
  simp only [CasbinRule.fields] at hne ⊢
  refine ⟨?_, fun hall => ?_⟩
  · interval_cases k <;> simp at e1 e2 e3 e4 e5 hne <;>
      simp [loadPolicyLine, loadPolicyLineText, sliceTo, *]
  · have m0 := n0 hall
    have m1 := n1 hall
    have m2 := n2 hall
    have m3 := n3 hall
    have m4 := n4 hall
    clear n0 n1 n2 n3 n4 hall
    interval_cases k <;> simp at e1 e2 e3 e4 e5 m0 m1 m2 m3 m4 hne <;>
      simp [loadPolicyLine, loadPolicyLineText, sliceTo, List.takeWhile, *]

/-- Witness for `loadPolicyLine_upto_last_nonempty`: the row with fields
`["a","b","","d"]`, whose last non-empty field is field 3. -/
theorem loadPolicyLine_upto_last_nonempty_witness :
    loadPolicyLine ⟨0, "p", "a", "b", "", "d", "", ""⟩ ["g, x, y"]
      = ["g, x, y"] ++ [stringsJoin ["p", "a", "b", "", "d"] ", "] :=
  (loadPolicyLine_upto_last_nonempty ⟨0, "p", "a", "b", "", "d", "", ""⟩ ["g, x, y"] 3
    (by decide) (by decide) (by intro j h1 h2; interval_cases j <;> decide)).1

/-! ## Properties: encoding and insert -/

/-- C6 (as stated) fails: for the rule `["a", ""]` the mapping returned by
`savePolicyLine` does contain the key `v1`, mapped to the empty string; a
supplied slot holding the empty string is present in the mapping. -/
theorem savePolicyLine_empty_slot_counterexample :
    "v1" ∈ (savePolicyLine "p" ["a", ""]).map Prod.fst ∧
    (savePolicyLine "p" ["a", ""]).lookup "v1" = some (Iface.str "") := by
  decide

/-- C6 (amended): the mapping returned by `savePolicyLine` maps `p_type` to the
type tag and has the key `v<i>` exactly when slot `i` is supplied (`i` below
the rule's length and below 6), then mapped to field `i`, empty or not; its
keys are `p_type` followed by `v0`, `v1`, ... for the supplied slots. -/
theorem savePolicyLine_keys_supplied (ptype : String) (rule : List String) :
    (savePolicyLine ptype rule).map Prod.fst
        = "p_type" :: ["v0", "v1", "v2", "v3", "v4", "v5"].take rule.length ∧
      (savePolicyLine ptype rule).lookup "p_type" = some (Iface.str ptype) ∧
      ∀ i, i < 6 →
        (savePolicyLine ptype rule).lookup ("v" ++ toString i) = (rule[i]?).map Iface.str := by
  have k0 : "v" ++ toString 0 = "v0" := by decide
  have k1 : "v" ++ toString 1 = "v1" := by decide
  have k2 : "v" ++ toString 2 = "v2" := by decide
  have k3 : "v" ++ toString 3 = "v3" := by decide
  have k4 : "v" ++ toString 4 = "v4" := by decide
  have k5 : "v" ++ toString 5 = "v5" := by decide
  rw [savePolicyLine_eq]
  refine ⟨?_, ?_, ?_⟩
  · rcases rule with _ | ⟨a, _ | ⟨b, _ | ⟨c, _ | ⟨d, _ | ⟨e, _ | ⟨f, rest⟩⟩⟩⟩⟩⟩ <;>
      simp [ruleColumns]
  · simp [ruleColumns, List.lookup]
  · intro i hi
    rcases rule with _ | ⟨a, _ | ⟨b, _ | ⟨c, _ | ⟨d, _ | ⟨e, _ | ⟨f, rest⟩⟩⟩⟩⟩⟩ <;>
      interval_cases i <;>
      simp only [k0, k1, k2, k3, k4, k5] <;>
      simp [ruleColumns, List.lookup]

/-- C2 (as stated) fails at length 0: encoding the type tag `p` with no fields
writes only the column `p_type`, and decoding that row hands the engine the
empty line, not the line `p`. -/
theorem roundtrip_empty_rule_counterexample :
    loadPolicyLine
        (storedRow 1 (ExecInsertSqlRow.columns (savePolicyLine "p" []))
          (ExecInsertSqlRow.stmt (savePolicyLine "p" [])).args) [] = [""] ∧
    loadPolicyLine
        (storedRow 1 (ExecInsertSqlRow.columns (savePolicyLine "p" []))
          (ExecInsertSqlRow.stmt (savePolicyLine "p" [])).args) []
      ≠ [stringsJoin ("p" :: []) ", "] := by
  decide

/-- C2 (amended): for every type tag and every field list of length 1 to 6
whose entries are all non-empty, whatever the order in which the map is
ranged over, the insert statement names the columns it binds, and decoding
the row it writes (unwritten columns reading back as empty) hands the engine
exactly the line of the type tag followed by the fields, in order. -/
theorem roundtrip_nonempty_rule (order : GoMap → List (String × Iface))
    (horder : ∀ m, (order m).Perm m) (id : Nat) (ptype : String) (rule : List String)
    (model : Model) (h1 : 1 ≤ rule.length) (h6 : rule.length ≤ 6)
    (hne : ∀ f ∈ rule, f ≠ "") :
    (ExecInsertSqlRow.stmt (order (savePolicyLine ptype rule))).text
        = insertText (ExecInsertSqlRow.columns (order (savePolicyLine ptype rule))) ∧
      loadPolicyLine
          (storedRow id (ExecInsertSqlRow.columns (order (savePolicyLine ptype rule)))
            (ExecInsertSqlRow.stmt (order (savePolicyLine ptype rule))).args) model
        = model ++ [stringsJoin (ptype :: rule) ", "] := by
  refine ⟨by rw [insert_stmt_eq], ?_⟩
  simp only [storedRow, readBack_insert order horder]
  rcases rule with _ | ⟨a, _ | ⟨b, _ | ⟨c, _ | ⟨d, _ | ⟨e, _ | ⟨f, _ | ⟨g, rest⟩⟩⟩⟩⟩⟩⟩
  · simp at h1
  all_goals first
    | (simp at h6; done)
    | (simp only [List.mem_cons, List.mem_singleton, forall_eq_or_imp, forall_eq,
        List.not_mem_nil, false_imp_iff, implies_true, and_true] at hne
       simp [ruleColumns, List.lookup, loadPolicyLine, loadPolicyLineText, sliceTo, hne])

/-- Witness for `roundtrip_nonempty_rule`: the rule `alice, data1, read` of
type `p`, the map being ranged over in reverse insertion order. -/
theorem roundtrip_nonempty_rule_witness :
    (ExecInsertSqlRow.stmt (List.reverse (savePolicyLine "p" ["alice", "data1", "read"]))).text
        = insertText (ExecInsertSqlRow.columns
            (List.reverse (savePolicyLine "p" ["alice", "data1", "read"]))) ∧
      loadPolicyLine
          (storedRow 7
            (ExecInsertSqlRow.columns
              (List.reverse (savePolicyLine "p" ["alice", "data1", "read"])))
            (ExecInsertSqlRow.stmt
              (List.reverse (savePolicyLine "p" ["alice", "data1", "read"]))).args) []
        = [] ++ [stringsJoin ("p" :: ["alice", "data1", "read"]) ", "] :=
  roundtrip_nonempty_rule List.reverse (fun m => List.reverse_perm m) 7 "p"
    ["alice", "data1", "read"] [] (by decide) (by decide) (by decide)

/-- C7: whatever the order in which the map is ranged over, the statement that
`AddPolicy` hands to the store is an insert naming columns `cols` with
arguments `args`, where the pairs (column, argument) are, up to order,
exactly the columns among `p_type`, `v0`..`v5` whose value in the rule is a
non-empty string, each paired with that value; every column is named once,
and a column whose value is empty or missing is neither named nor bound. -/
theorem AddPolicy_names_nonempty_columns (a : Adapter) (db : SqlDB)
    (order : GoMap → List (String × Iface)) (sec ptype : String) (rule : List String)
    (hdb : a.db = some db) (horder : ∀ m, (order m).Perm m) :
    ∃ cols args,
      a.AddPolicy order sec ptype rule =
        .ret ({ a with db := some { db with issued := db.issued ++ [⟨insertText cols, args⟩] } },
          db.execAnswer db.issued ⟨insertText cols, args⟩) ∧
      cols.length = args.length ∧ cols.Nodup ∧
      (cols.zip args).Perm
        (((ruleColumns ptype rule).filter (fun e => decide (e.2 ≠ ""))).map
          (fun e => (e.1, Iface.str e.2))) := by
  have hp : ((order (savePolicyLine ptype rule)).filter ExecInsertSqlRow.bound).Perm
      ((savePolicyLine ptype rule).filter ExecInsertSqlRow.bound) := (horder _).filter _
  have hnd : (((savePolicyLine ptype rule).filter ExecInsertSqlRow.bound).map Prod.fst).Nodup :=
    ((List.filter_sublist _).map Prod.fst).nodup (savePolicyLine_keys_nodup ptype rule)
  refine ⟨ExecInsertSqlRow.columns (order (savePolicyLine ptype rule)),
    ((order (savePolicyLine ptype rule)).filter ExecInsertSqlRow.bound).map Prod.snd,
    ?_, ?_, ?_, ?_⟩
  · simp [Adapter.AddPolicy, Adapter.ExecInsertSqlRow, hdb, insert_stmt_eq, SqlDB.Exec]
  · simp [ExecInsertSqlRow.columns]
  · exact (hp.map Prod.fst).nodup_iff.mpr hnd
  · rw [ExecInsertSqlRow.columns, zip_fst_snd, ← savePolicyLine_filter_bound]
    exact hp

/-- Witness for `AddPolicy_names_nonempty_columns`: adding the rule
`alice, "", read` of type `p` on a live connection, the map being ranged over
in reverse insertion order. -/
theorem AddPolicy_names_nonempty_columns_witness :
    ∃ cols args,
      quietAdapter.AddPolicy List.reverse "p" "p" ["alice", "", "read"] =
        .ret ({ quietAdapter with
                db := some { quietDB with
                  issued := quietDB.issued ++ [⟨insertText cols, args⟩] } },
          quietDB.execAnswer quietDB.issued ⟨insertText cols, args⟩) ∧
      cols.length = args.length ∧ cols.Nodup ∧
      (cols.zip args).Perm
        (((ruleColumns "p" ["alice", "", "read"]).filter (fun e => decide (e.2 ≠ ""))).map
          (fun e => (e.1, Iface.str e.2))) :=
  AddPolicy_names_nonempty_columns quietAdapter quietDB List.reverse "p" "p"
    ["alice", "", "read"] rfl (fun m => List.reverse_perm m)

/-- C18: for every map (entries with pairwise distinct keys) and every order
in which the loop visits its entries, the statement `ExecInsertSqlRow` builds
is `insert into casbin_rule(<cols>) values(<placeholders>);` where the column
names and the placeholders `$1`, ..., `$k` are comma separated with nothing
before the first or after the last, `k` being the number of entries whose
value is neither nil nor the empty string; there are `k` arguments, and the
`j`-th argument is the value the map gives the `j`-th column named. Hence the
pairs (column, argument) are, up to order, the entries of the map that are
written, the same for every order of visit. -/
theorem ExecInsertSqlRow_placeholders_aligned (m : GoMap) (visit : List (String × Iface))
    (hkeys : (m.map Prod.fst).Nodup) (hvisit : visit.Perm m) :
    (ExecInsertSqlRow.stmt visit).text
        = "insert into casbin_rule(" ++ stringsJoin (ExecInsertSqlRow.columns visit) "," ++
            ") values(" ++
            stringsJoin (placeholders (ExecInsertSqlRow.columns visit).length) "," ++ ");" ∧
      placeholders (ExecInsertSqlRow.columns visit).length
        = (List.range' 1 (m.filter ExecInsertSqlRow.bound).length).map
            (fun j => "$" ++ strconvItoa (j : Nat)) ∧
      placeholderCount
          (stringsJoin (placeholders (ExecInsertSqlRow.columns visit).length) ",")
        = (ExecInsertSqlRow.stmt visit).args.length ∧
      (ExecInsertSqlRow.columns visit).length = (m.filter ExecInsertSqlRow.bound).length ∧
      (ExecInsertSqlRow.stmt visit).args.length = (m.filter ExecInsertSqlRow.bound).length ∧
      (∀ (j : Nat) (col : String), (ExecInsertSqlRow.columns visit)[j]? = some col →
        ∃ v, (ExecInsertSqlRow.stmt visit).args[j]? = some v ∧ m.lookup col = some v) ∧
      ((ExecInsertSqlRow.columns visit).zip (ExecInsertSqlRow.stmt visit).args).Perm
        (m.filter ExecInsertSqlRow.bound) ∧
      (∀ visit2 : List (String × Iface), visit2.Perm m →
        ((ExecInsertSqlRow.columns visit).zip (ExecInsertSqlRow.stmt visit).args).Perm
          ((ExecInsertSqlRow.columns visit2).zip (ExecInsertSqlRow.stmt visit2).args)) := by
  have hp : (visit.filter ExecInsertSqlRow.bound).Perm (m.filter ExecInsertSqlRow.bound) :=
    hvisit.filter _
  have hlen : (ExecInsertSqlRow.columns visit).length
      = (m.filter ExecInsertSqlRow.bound).length := by
    rw [ExecInsertSqlRow.columns, List.length_map]
    exact hp.length_eq
  have hzip : ∀ v : List (String × Iface),
      (ExecInsertSqlRow.columns v).zip (ExecInsertSqlRow.stmt v).args
        = v.filter ExecInsertSqlRow.bound := by
    intro v
    rw [insert_stmt_eq, ExecInsertSqlRow.columns, zip_fst_snd]
  refine ⟨?_, ?_, ?_, hlen, ?_, ?_, ?_, ?_⟩
  · rw [insert_stmt_eq]
    rfl
  · rw [hlen]
    rfl
  · rw [placeholderCount_placeholders, insert_stmt_eq]
    simp [ExecInsertSqlRow.columns]
  · rw [insert_stmt_eq, List.length_map]
    exact hp.length_eq
  · intro j col hcol
    rw [ExecInsertSqlRow.columns, List.getElem?_map] at hcol
    cases hkv : (visit.filter ExecInsertSqlRow.bound)[j]? with
    | none => simp [hkv] at hcol
    | some kv =>
      obtain ⟨c, v⟩ := kv
      simp only [hkv, Option.map_some', Option.some.injEq] at hcol
      subst hcol
      refine ⟨v, ?_, ?_⟩
      · rw [insert_stmt_eq]
        simp [List.getElem?_map, hkv]
      · have hmem : (c, v) ∈ visit.filter ExecInsertSqlRow.bound := List.getElem?_mem hkv
        exact lookup_of_mem hkeys (hvisit.subset (List.mem_filter.mp hmem).1)
  · rw [hzip]
    exact hp
  · intro visit2 hvisit2
    rw [hzip, hzip]
    exact hp.trans (hvisit2.filter _).symm

/-- Witness for `ExecInsertSqlRow_placeholders_aligned`: the map of the rule
`alice, "", read` of type `p`, visited in reverse insertion order; the
statement is `insert into casbin_rule(v2,v0,p_type) values($1,$2,$3);` with
the arguments `read, alice, p`. -/
theorem ExecInsertSqlRow_placeholders_aligned_witness :
    ExecInsertSqlRow.stmt (List.reverse (savePolicyLine "p" ["alice", "", "read"]))
        = ⟨"insert into casbin_rule(v2,v0,p_type) values($1,$2,$3);",
            [Iface.str "read", Iface.str "alice", Iface.str "p"]⟩ ∧
      ((ExecInsertSqlRow.columns (List.reverse (savePolicyLine "p" ["alice", "", "read"]))).zip
          (ExecInsertSqlRow.stmt
            (List.reverse (savePolicyLine "p" ["alice", "", "read"]))).args).Perm
        ((savePolicyLine "p" ["alice", "", "read"]).filter ExecInsertSqlRow.bound) :=
  ⟨by decide,
    (ExecInsertSqlRow_placeholders_aligned (savePolicyLine "p" ["alice", "", "read"])
      (List.reverse (savePolicyLine "p" ["alice", "", "read"])) (by decide)
      (List.reverse_perm _)).2.2.2.2.2.2.1⟩

/-! ## Properties: delete builder -/

/-- C4: for a field list of length `n ≤ 6`, `rawDelete` hands the store the
statement `delete from <table> where <predicate>;` whose predicate is
`p_type = $1` followed, for each `i < n` in increasing order, by
` and v<i> = $<i+2>` and nothing else; the arguments are the type tag
followed by the fields in order, and the predicate has as many placeholders
as there are arguments. -/
theorem rawDelete_predicate (a : Adapter) (db : SqlDB) (ptype : String) (line : List String)
    (hlen : line.length ≤ 6) :
    a.rawDelete ptype (some db) line =
        .ret (some { db with issued := db.issued ++
                [⟨"delete from " ++ a.tableName ++ " where " ++ deletePredicate line.length ++ ";",
                  Iface.str ptype :: line.map Iface.str⟩] },
          db.execAnswer db.issued
            ⟨"delete from " ++ a.tableName ++ " where " ++ deletePredicate line.length ++ ";",
              Iface.str ptype :: line.map Iface.str⟩) ∧
      placeholderCount (deletePredicate line.length)
        = (Iface.str ptype :: line.map Iface.str).length := by
  have d0 : deletePredicate 0 = "p_type = $1" := by decide
  have d1 : deletePredicate 1 = "p_type = $1 and v0 = $2" := by decide
  have d2 : deletePredicate 2 = "p_type = $1 and v0 = $2 and v1 = $3" := by decide
  have d3 : deletePredicate 3 = "p_type = $1 and v0 = $2 and v1 = $3 and v2 = $4" := by decide
  have d4 : deletePredicate 4
      = "p_type = $1 and v0 = $2 and v1 = $3 and v2 = $4 and v3 = $5" := by decide
  have d5 : deletePredicate 5
      = "p_type = $1 and v0 = $2 and v1 = $3 and v2 = $4 and v3 = $5 and v4 = $6" := by decide
  have d6 : deletePredicate 6
      = "p_type = $1 and v0 = $2 and v1 = $3 and v2 = $4 and v3 = $5 and v4 = $6 and v5 = $7" := by
    decide
  have i2 : strconvItoa (2 : Int) = "2" := by decide
  have i3 : strconvItoa (3 : Int) = "3" := by decide
  have i4 : strconvItoa (4 : Int) = "4" := by decide
  have i5 : strconvItoa (5 : Int) = "5" := by decide
  have i6 : strconvItoa (6 : Int) = "6" := by decide
  have i7 : strconvItoa (7 : Int) = "7" := by decide
  rcases line with _ | ⟨a0, _ | ⟨a1, _ | ⟨a2, _ | ⟨a3, _ | ⟨a4, _ | ⟨a5, _ | ⟨a6, rest⟩⟩⟩⟩⟩⟩⟩
  case cons.cons.cons.cons.cons.cons.cons => simp at hlen
  all_goals
    refine ⟨?_, ?_⟩
    · simp [Adapter.rawDelete, rawDelete.stmt, rawDelete.build, rawDelete.column, SqlDB.Exec,
        d0, d1, d2, d3, d4, d5, d6, i2, i3, i4, i5, i6, i7]
    · simp only [List.length_nil, List.length_cons, List.map_cons, List.map_nil,
        d0, d1, d2, d3, d4, d5, d6]
      decide

/-- Witness for `rawDelete_predicate`: type `p` with the fields
`alice, data1` on the table `casbin_rule`. -/
theorem rawDelete_predicate_witness :
    quietAdapter.rawDelete "p" (some quietDB) ["alice", "data1"] =
        .ret (some { quietDB with issued := quietDB.issued ++
                [⟨"delete from " ++ quietAdapter.tableName ++ " where " ++
                    deletePredicate ["alice", "data1"].length ++ ";",
                  Iface.str "p" :: ["alice", "data1"].map Iface.str⟩] },
          quietDB.execAnswer quietDB.issued
            ⟨"delete from " ++ quietAdapter.tableName ++ " where " ++
                deletePredicate ["alice", "data1"].length ++ ";",
              Iface.str "p" :: ["alice", "data1"].map Iface.str⟩) ∧
      placeholderCount (deletePredicate ["alice", "data1"].length)
        = (Iface.str "p" :: ["alice", "data1"].map Iface.str).length :=
  rawDelete_predicate quietAdapter quietDB "p" ["alice", "data1"] (by decide)

/-- C3 fails on the code at `fieldIndex = 1`, values `["data1", "read"]`: the
line passed on is the dense list `["data1", "read"]`, so the statement issued
is `delete from casbin_rule where p_type = $1 and v0 = $2 and v1 = $3;` with
the arguments `p, data1, read`. The values are compared with `v0` and `v1`,
not with `v1` and `v2`, and `v0` is constrained. -/
theorem RemoveFilteredPolicy_offset_lost :
    RemoveFilteredPolicy.line 1 ["data1", "read"] = .ret ["data1", "read"] ∧
    quietAdapter.RemoveFilteredPolicy "p" "p" 1 ["data1", "read"] =
      .ret ({ quietAdapter with
              db := some { quietDB with
                issued := [⟨"delete from casbin_rule where p_type = $1 and v0 = $2 and v1 = $3;",
                  [Iface.str "p", Iface.str "data1", Iface.str "read"]⟩] } },
        none) := by
  constructor
  · decide
  · rfl

/-! ## Properties: filter query builder -/

/-- C5: for every table, column name and candidate list of length `n`,
`QueryFilter` hands the store the query `select * from <table> where
<column> in (<list>);` whose list is the `n` placeholders ` $1`, ..., ` $n`
in increasing order joined by single commas (nothing before the first or
after the last), so it holds as many placeholders as there are arguments,
and the arguments are the candidates in the same order;
for the column `v1` and the candidates `x, y, z` that is the list
` $1, $2, $3` with the arguments `x, y, z`. -/
theorem QueryFilter_in_list (a : Adapter) (db : SqlDB) (filtersub : String) (model : Model)
    (qvalue : List String) :
    QueryFilter.stmt a.tableName filtersub qvalue =
        { text := "select * from " ++ a.tableName ++ " where " ++ filtersub ++ " in (" ++
            stringsJoin
              ((List.range' 1 qvalue.length).map (fun j => " $" ++ strconvItoa (j : Nat))) "," ++
            ");"
          args := qvalue.map Iface.str } ∧
      placeholderCount
          (stringsJoin
            ((List.range' 1 qvalue.length).map (fun j => " $" ++ strconvItoa (j : Nat))) ",")
        = (qvalue.map Iface.str).length ∧
      (∃ model1 err,
        { a with db := some db }.QueryFilter filtersub model qvalue =
          .ret ({ a with db := some { db with issued := db.issued ++
                    [QueryFilter.stmt a.tableName filtersub qvalue] } }, model1, err)) ∧
      QueryFilter.stmt "casbin_rule" "v1" ["x", "y", "z"] =
        { text := "select * from casbin_rule where v1 in ( $1, $2, $3);"
          args := [Iface.str "x", Iface.str "y", Iface.str "z"] } := by
  refine ⟨?_, by rw [placeholderCount_in_list, List.length_map], ?_, by decide⟩
  · simp [QueryFilter.stmt, filter_loop_zero]
  · simp only [Adapter.QueryFilter, SqlDB.Query]
    cases h : db.queryAnswer db.issued
        ⟨(QueryFilter.stmt a.tableName filtersub qvalue).text,
          (QueryFilter.stmt a.tableName filtersub qvalue).args⟩ with
    | error e => exact ⟨_, _, rfl⟩
    | ok rows => exact ⟨_, _, rfl⟩

/-! ## Properties: constructor parameters -/

/-- C8 fails on the code: with three parameters whose third is a bool and
whose first is not a string, the unchecked assertion `params[0].(string)`
panics, in the parameter resolution and so in `NewAdapter`, whatever the
driver, the data source and the behaviour of `sql.Open`; the same holds when
the second parameter is not a string. -/
theorem NewAdapter_three_params_panics (sqlOpen : String → String → Except String SqlDB)
    (driverName dataSourceName : String) :
    NewAdapter.resolveParams driverName dataSourceName
        [Iface.other 0, Iface.str "casbin_rule", Iface.bool true]
      = .panics "interface conversion: not a string" ∧
    NewAdapter sqlOpen driverName dataSourceName
        [Iface.other 0, Iface.str "casbin_rule", Iface.bool true]
      = .panics "interface conversion: not a string" ∧
    NewAdapter sqlOpen driverName dataSourceName
        [Iface.str "casbin", Iface.null, Iface.bool false]
      = .panics "interface conversion: not a string" := by
  refine ⟨rfl, rfl, rfl⟩

/-! ## Properties: the flag `isFiltered` -/

/-- C9 (as stated) fails: on the adapter that `NewAdapterByDB` constructs,
`LoadFilteredPolicy` called with a pointer to a `Filter` returns the error
`invalid filter type` and `IsFiltered` is still false; likewise a call with a
`Filter` value whose query the store rejects returns the error and leaves
`IsFiltered` false. -/
theorem IsFiltered_after_failed_filtered_load :
    ∃ a, NewAdapterByDB (some quietDB) = .ret (.ok a) ∧ a.IsFiltered = false ∧
      a.LoadFilteredPolicy [] (.filterPtr {}) = .ret (a, [], some "invalid filter type") ∧
      ∃ a1, { a with db := some failingDB }.LoadFilteredPolicy [] (.filter { PType := ["p"] })
          = .ret (a1, [], some "pq: error") ∧ a1.IsFiltered = false :=
  ⟨_, rfl, rfl, rfl, _, rfl, rfl⟩

/-- C9 (amended): `IsFiltered` is false on every adapter returned by
`NewAdapter` or `NewAdapterByDBUseTableName`; it is true after every call of
`LoadFilteredPolicy` that returns no error, which is what every call with a
`Filter` value on a live connection does when the store answers each query,
whatever the filter holds and whatever rows come back; a call that returns
an error leaves the flag as it was. -/
theorem IsFiltered_after_filtered_load :
    (∀ sqlOpen driverName dataSourceName params a,
      NewAdapter sqlOpen driverName dataSourceName params = .ret (.ok a) →
        a.IsFiltered = false) ∧
    (∀ db pfx tableName a,
      NewAdapterByDBUseTableName db pfx tableName = .ret (.ok a) → a.IsFiltered = false) ∧
    (∀ (a a1 : Adapter) (model m1 : Model) (filter : Iface),
      a.LoadFilteredPolicy model filter = .ret (a1, m1, none) → a1.IsFiltered = true) ∧
    (∀ (a : Adapter) (db : SqlDB) (model : Model) (f : Filter), a.db = some db →
      (∀ hist q, ∃ rows, db.queryAnswer hist q = .ok rows) →
        ∃ a1 m1, a.LoadFilteredPolicy model (.filter f) = .ret (a1, m1, none) ∧
          a1.IsFiltered = true) ∧
    (∀ (a a1 : Adapter) (model m1 : Model) (filter : Iface) (err : String),
      a.LoadFilteredPolicy model filter = .ret (a1, m1, some err) →
        a1.IsFiltered = a.IsFiltered) := by
  refine ⟨?_, ?_, ?_, ?_, ?_⟩
  · exact fun sqlOpen d s params a h => NewAdapter_flag sqlOpen d s params a h
  · exact fun db pfx t a h => NewAdapterByDBUseTableName_flag db pfx t a h
  · exact fun a a1 model m1 filter h => (LoadFilteredPolicy_ret _ _ _ _ _ _ h).1 rfl
  · intro a db model f hdb hq
    obtain ⟨a1, m1, h⟩ := LoadFilteredPolicy_answered a db model f hdb hq
    exact ⟨a1, m1, h, (LoadFilteredPolicy_ret _ _ _ _ _ _ h).1 rfl⟩
  · exact fun a a1 model m1 filter err h =>
      (LoadFilteredPolicy_ret _ _ _ _ _ _ h).2 (by simp)

/-- Witness for `IsFiltered_after_filtered_load`: the adapters built by
`NewAdapter` and by `NewAdapterByDBUseTableName` on a store that accepts
every statement are unfiltered; on a live connection a filtered load with the
all-empty `Filter`, as one with the filter `v1 in (x, y)`, returns no error
and leaves `IsFiltered` true; a filtered load given a `*Filter` returns an
error and leaves `IsFiltered` false. -/
theorem IsFiltered_after_filtered_load_witness :
    (∃ a, NewAdapter (fun _ _ => .ok quietDB) "postgres" "host=db" [] = .ret (.ok a) ∧
      a.IsFiltered = false) ∧
    (∃ a, NewAdapterByDBUseTableName (some quietDB) "" "casbin_rule" = .ret (.ok a) ∧
      a.IsFiltered = false) ∧
    (∃ a1, quietAdapter.LoadFilteredPolicy [] (.filter {}) = .ret (a1, [], none) ∧
      a1.IsFiltered = true) ∧
    (∃ a1 m1, quietAdapter.LoadFilteredPolicy [] (.filter { V1 := ["x", "y"] })
        = .ret (a1, m1, none) ∧ a1.IsFiltered = true) ∧
    (∃ a1, quietAdapter.LoadFilteredPolicy [] (.filterPtr {})
        = .ret (a1, [], some "invalid filter type") ∧
      a1.IsFiltered = quietAdapter.IsFiltered) :=
  ⟨⟨_, rfl, IsFiltered_after_filtered_load.1 (fun _ _ => .ok quietDB) "postgres" "host=db" []
      _ rfl⟩,
    ⟨_, rfl, IsFiltered_after_filtered_load.2.1 (some quietDB) "" "casbin_rule" _ rfl⟩,
    ⟨_, rfl, IsFiltered_after_filtered_load.2.2.1 quietAdapter _ [] [] (.filter {}) rfl⟩,
    IsFiltered_after_filtered_load.2.2.2.1 quietAdapter quietDB [] { V1 := ["x", "y"] } rfl
      (fun _ _ => ⟨[], rfl⟩),
    ⟨_, rfl, IsFiltered_after_filtered_load.2.2.2.2 quietAdapter _ [] [] (.filterPtr {})
      "invalid filter type" rfl⟩⟩

/-- C10 (as stated) fails: after a `LoadFilteredPolicy` followed by a full
`LoadPolicy`, both returning no error, the last load is not a filtered one
and yet `IsFiltered` returns true. -/
theorem IsFiltered_not_reset_by_LoadPolicy :
    ∃ a1, quietAdapter.loads [] [.loadFilteredPolicy (.filter {}), .loadPolicy]
        = .ret (a1, [], [none, none]) ∧
      a1.IsFiltered = true ∧
      ([LoadCall.loadFilteredPolicy (.filter {}), LoadCall.loadPolicy].getLast?.map
        LoadCall.isFilteredLoad) = some false :=
  ⟨_, rfl, rfl, rfl⟩

/-- C10 (amended): for every sequence of `LoadPolicy` and `LoadFilteredPolicy`
calls on an adapter, `IsFiltered` afterwards is true exactly when it was true
before or some `LoadFilteredPolicy` call of the sequence returned no error;
no load resets the flag, so a `LoadPolicy` leaves it as it was. On a live
connection every such sequence runs to its end. -/
theorem IsFiltered_iff_some_filtered_load_succeeded :
    (∀ (a a1 : Adapter) (model m1 : Model) (calls : List LoadCall)
        (errs : List (Option String)),
      a.loads model calls = .ret (a1, m1, errs) →
        errs.length = calls.length ∧
          (a1.IsFiltered = true ↔
            a.IsFiltered = true ∨ someFilteredLoadSucceeded calls errs = true)) ∧
    (∀ (a a1 : Adapter) (model m1 : Model) (err : Option String),
      a.LoadPolicy model = .ret (a1, m1, err) → a1.IsFiltered = a.IsFiltered) ∧
    (∀ (a : Adapter) (db : SqlDB) (model : Model) (calls : List LoadCall), a.db = some db →
      ∃ a1 m1 errs, a.loads model calls = .ret (a1, m1, errs)) := by
  refine ⟨?_, ?_, ?_⟩
  · intro a a1 model m1 calls errs h
    obtain ⟨hlen, hflag⟩ := loads_flag calls a a1 model m1 errs h
    refine ⟨hlen, ?_⟩
    simp only [Adapter.IsFiltered, hflag, Bool.or_eq_true]
  · exact fun a a1 model m1 err h => (LoadPolicy_ret _ _ _ _ _ h).1
  · exact fun a db model calls hdb => loads_total calls a model (by simp [hdb])

/-- Witness for `IsFiltered_iff_some_filtered_load_succeeded`: on a live
connection, a rejected filtered load, a filtered load and a full load, in
that order. -/
theorem IsFiltered_iff_some_filtered_load_succeeded_witness :
    (∃ a1, quietAdapter.loads []
          [.loadFilteredPolicy .null, .loadFilteredPolicy (.filter {}), .loadPolicy]
        = .ret (a1, [], [some "invalid filter type", none, none]) ∧
      (a1.IsFiltered = true ↔
        quietAdapter.IsFiltered = true ∨
          someFilteredLoadSucceeded
            [.loadFilteredPolicy .null, .loadFilteredPolicy (.filter {}), .loadPolicy]
            [some "invalid filter type", none, none] = true)) ∧
    (∃ a1, quietAdapter.LoadPolicy [] = .ret (a1, [], none) ∧
      a1.IsFiltered = quietAdapter.IsFiltered) ∧
    (∃ a1 m1 errs, quietAdapter.loads [] [.loadPolicy, .loadFilteredPolicy (.filter {})]
      = .ret (a1, m1, errs)) :=
  ⟨⟨_, rfl, (IsFiltered_iff_some_filtered_load_succeeded.1 quietAdapter _ [] []
      [.loadFilteredPolicy .null, .loadFilteredPolicy (.filter {}), .loadPolicy]
      [some "invalid filter type", none, none] rfl).2⟩,
    ⟨_, rfl, IsFiltered_iff_some_filtered_load_succeeded.2.1 quietAdapter _ [] [] none rfl⟩,
    IsFiltered_iff_some_filtered_load_succeeded.2.2 quietAdapter quietDB []
      [.loadPolicy, .loadFilteredPolicy (.filter {})] rfl⟩

/-! ## Properties: offset projection of `RemoveFilteredPolicy` -/

/-- C16: for every integer `fieldIndex` and every value list, each access
`fieldValues[k - fieldIndex]` made under the guard `fieldIndex <= k && k <
fieldIndex + len(fieldValues)` is within bounds, so the projection never
panics, and the line it yields is exactly the values at the positions
`k - fieldIndex` for those `k` in `0..5` that pass the guard, in increasing
`k`. For `0 ≤ fieldIndex ≤ 5` that is the first `min(len, 6 - fieldIndex)`
values, for `fieldIndex ≥ 6` it is empty, and for a negative `fieldIndex` it
is the first six values after the first `-fieldIndex`. For a 64-bit
`fieldIndex` the guard and the index computed with wrap-around are those
computed exactly. -/
theorem RemoveFilteredPolicy_projection (fieldIndex : Int) (fieldValues : List String) :
    (∀ k : Int, fieldIndex ≤ k → k < fieldIndex + fieldValues.length →
      0 ≤ k - fieldIndex ∧ k - fieldIndex < fieldValues.length ∧
        goIndex fieldValues (k - fieldIndex)
          = .ret (fieldValues.getD (k - fieldIndex).toNat "")) ∧
    RemoveFilteredPolicy.line fieldIndex fieldValues
      = .ret (projectionWindow fieldIndex fieldValues) ∧
    (0 ≤ fieldIndex → fieldIndex ≤ 5 →
      projectionWindow fieldIndex fieldValues
        = fieldValues.take (min fieldValues.length (6 - fieldIndex).toNat)) ∧
    (6 ≤ fieldIndex → projectionWindow fieldIndex fieldValues = []) ∧
    (fieldIndex < 0 →
      projectionWindow fieldIndex fieldValues
        = (fieldValues.drop (-fieldIndex).toNat).take 6) ∧
    (∀ k : Int, -9223372036854775808 ≤ fieldIndex → fieldIndex ≤ 9223372036854775807 →
      (fieldValues.length : Int) ≤ 9223372036854775801 → 0 ≤ k → k ≤ 5 →
      ((fieldIndex ≤ k ∧ k < wrapInt64 (fieldIndex + fieldValues.length)) ↔
          (fieldIndex ≤ k ∧ k < fieldIndex + fieldValues.length)) ∧
        ((fieldIndex ≤ k ∧ k < fieldIndex + fieldValues.length) →
          wrapInt64 (k - fieldIndex) = k - fieldIndex)) := by
  refine ⟨?_, projection_line fieldIndex fieldValues, window_take fieldIndex fieldValues,
    window_beyond fieldIndex fieldValues, window_negative fieldIndex fieldValues, ?_⟩
  · intro k h1 h2
    exact ⟨by omega, by omega, goIndex_in_window fieldIndex fieldValues k h1 h2⟩
  · intro k hlo hhi hlen hk0 hk5
    exact guard_wrap fieldIndex fieldValues.length k hlo hhi (by omega) hlen hk0 hk5

/-- Witness for `RemoveFilteredPolicy_projection`: the access for column 2 at
`fieldIndex = 1`, the windows at `fieldIndex` 4, 7 and -1 of a list of three
values, and the guard of column 5 at the largest 64-bit `fieldIndex`. -/
theorem RemoveFilteredPolicy_projection_witness :
    goIndex ["data1", "read"] (2 - 1) = .ret "read" ∧
    RemoveFilteredPolicy.line 4 ["a", "b", "c"] = .ret ["a", "b"] ∧
    projectionWindow 4 ["a", "b", "c"] = ["a", "b"] ∧
    projectionWindow 7 ["a", "b", "c"] = [] ∧
    projectionWindow (-1) ["a", "b", "c"] = ["b", "c"] ∧
    ((9223372036854775807 ≤ (5 : Int) ∧
        (5 : Int) < wrapInt64 (9223372036854775807 + (["a", "b", "c"].length : Int))) ↔
      (9223372036854775807 ≤ (5 : Int) ∧
        (5 : Int) < 9223372036854775807 + (["a", "b", "c"].length : Int))) :=
  ⟨((RemoveFilteredPolicy_projection 1 ["data1", "read"]).1 2 (by decide) (by decide)).2.2,
    (RemoveFilteredPolicy_projection 4 ["a", "b", "c"]).2.1,
    (RemoveFilteredPolicy_projection 4 ["a", "b", "c"]).2.2.1 (by decide) (by decide),
    (RemoveFilteredPolicy_projection 7 ["a", "b", "c"]).2.2.2.1 (by decide),
    (RemoveFilteredPolicy_projection (-1) ["a", "b", "c"]).2.2.2.2.1 (by decide),
    ((RemoveFilteredPolicy_projection 9223372036854775807 ["a", "b", "c"]).2.2.2.2.2 5
      (by decide) (by decide) (by decide) (by decide) (by decide)).1⟩

/-- C17: for every adapter, type tag and rule of any length,
`RemoveFilteredPolicy(sec, ptype, 0, rule...)` does exactly what
`RemovePolicy(sec, ptype, rule)` does: the line it passes to `rawDelete` is
the first six fields of the rule, `rawDelete` builds from these the same
statement text and arguments as from the whole rule (fields beyond the sixth
are ignored by both), and on a live connection that one statement is what
either call hands the store. -/
theorem RemoveFilteredPolicy_zero_eq_RemovePolicy (a : Adapter) (sec ptype : String)
    (rule : List String) :
    a.RemoveFilteredPolicy sec ptype 0 rule = a.RemovePolicy sec ptype rule ∧
    RemoveFilteredPolicy.line 0 rule = .ret (rule.take 6) ∧
    rawDelete.stmt a.tableName ptype (rule.take 6) = rawDelete.stmt a.tableName ptype rule ∧
    (∀ db : SqlDB,
      { a with db := some db }.RemovePolicy sec ptype rule =
        .ret ({ a with db := some { db with issued := db.issued ++
                  [rawDelete.stmt a.tableName ptype (rule.take 6)] } },
          db.execAnswer db.issued (rawDelete.stmt a.tableName ptype (rule.take 6)))) := by
  have hline : RemoveFilteredPolicy.line 0 rule = .ret (rule.take 6) := by
    rw [projection_line, window_take 0 rule (by decide) (by decide)]
    congr 1
    rw [List.take_eq_take]
    simp [Nat.min_comm]
  have hstmt : rawDelete.stmt a.tableName ptype (rule.take 6)
      = rawDelete.stmt a.tableName ptype rule := by
    simp only [rawDelete.stmt, rawDelete_build_take]
  refine ⟨?_, hline, hstmt, ?_⟩
  · simp only [Adapter.RemoveFilteredPolicy, Adapter.RemovePolicy, hline, Adapter.rawDelete,
      hstmt]
  · intro db
    simp only [Adapter.RemovePolicy, Adapter.rawDelete, SqlDB.Exec, hstmt]

/-! ## Properties: table name and constructor defaults -/

/-- C11 fails on the code: `NewAdapterByDBUseTableName` stores the prefix and
never applies it. For every connection, prefix and table name the statement
it issues is the `CREATE table` for the bare table name (`casbin_rule` when
the name is empty), and the adapter it returns keeps that bare name; with the
prefix `cms` and the table `casbin` the table created is `casbin`, and the
select of `LoadPolicy` and the delete of `RemovePolicy` that follow are on
`casbin` too, not on `cms_casbin`, the name that `casbinRuleTable`, which
nothing calls, would give the adapter. -/
theorem NewAdapterByDBUseTableName_prefix_unused :
    (∀ (db : SqlDB) (pfx tableName : String),
      NewAdapterByDBUseTableName (some db) pfx tableName =
        match db.execAnswer db.issued
            ⟨createTableText (if tableName.length = 0 then "casbin_rule" else tableName), []⟩ with
        | some err => .ret (.error err)
        | none => .ret (.ok
            { tablePrefix := pfx
              tableName := if tableName.length = 0 then "casbin_rule" else tableName
              driverName := "postgres"
              db := some { db with issued := db.issued ++
                [⟨createTableText (if tableName.length = 0 then "casbin_rule" else tableName),
                  []⟩] } })) ∧
    (∃ a, NewAdapterByDBUseTableName (some quietDB) "cms" "casbin" = .ret (.ok a) ∧
      a.tablePrefix = "cms" ∧ a.tableName = "casbin" ∧
      a.casbinRuleTable.tableName = "cms_casbin" ∧
      a.db.map SqlDB.issued = some [⟨createTableText "casbin", []⟩] ∧
      (∃ a1, a.LoadPolicy [] = .ret (a1, [], none) ∧
        a1.db.map SqlDB.issued
          = some [⟨createTableText "casbin", []⟩, ⟨"select * from casbin;", []⟩]) ∧
      (∃ a1, a.RemovePolicy "p" "p" ["alice"] = .ret (a1, none) ∧
        a1.db.map SqlDB.issued
          = some [⟨createTableText "casbin", []⟩,
              ⟨"delete from casbin where p_type = $1 and v0 = $2;",
                [Iface.str "p", Iface.str "alice"]⟩])) := by
  refine ⟨?_, ⟨_, rfl, rfl, rfl, by decide, rfl, ⟨_, rfl, rfl⟩, ⟨_, rfl, rfl⟩⟩⟩
  intro db pfx tableName
  simp only [NewAdapterByDBUseTableName, Adapter.createTable, SqlDB.Exec, defaultTableName,
    if_true]
  cases db.execAnswer db.issued
      ⟨createTableText (if tableName.length = 0 then "casbin_rule" else tableName), []⟩ <;> rfl

/-- C12 fails on the code: with no optional parameter the resolved
configuration has the database name `casbin` and the table name
`casbin_rule`, but `dbSpecified` is true, not false; with a single string
parameter only the database name changes and `dbSpecified` is again true. So
`NewAdapter` opens the connection as given and issues no `CREATE DATABASE`. -/
theorem NewAdapter_default_dbSpecified :
    (∀ driverName dataSourceName : String,
      NewAdapter.resolveParams driverName dataSourceName [] =
        .ret (.ok { driverName := driverName, dataSourceName := dataSourceName,
                    databaseName := "casbin", tableName := "casbin_rule",
                    dbSpecified := true })) ∧
    (∀ driverName dataSourceName name : String,
      NewAdapter.resolveParams driverName dataSourceName [Iface.str name] =
        .ret (.ok { driverName := driverName, dataSourceName := dataSourceName,
                    databaseName := name, tableName := "casbin_rule",
                    dbSpecified := true })) ∧
    (∃ a, NewAdapter (fun _ _ => .ok quietDB) "postgres" "host=db" [] = .ret (.ok a) ∧
      a.dbSpecified = true ∧
      a.db.map SqlDB.issued = some [⟨createTableText "casbin_rule", []⟩]) :=
  ⟨fun _ _ => rfl, fun _ _ _ => rfl, ⟨_, rfl, rfl, rfl⟩⟩

/-! ## Properties: filtered load -/

/-- C13: for every filter argument that is not a `Filter` struct value (a
`*Filter`, nil, or anything else), `LoadFilteredPolicy` returns the error
`invalid filter type` with the adapter and the engine model exactly as they
were: no statement reaches the store, nothing is fed to the model and
`isFiltered` keeps its value. -/
theorem LoadFilteredPolicy_invalid_filter (a : Adapter) (model : Model) (filter : Iface)
    (hfilter : ∀ f, filter ≠ Iface.filter f) :
    a.LoadFilteredPolicy model filter = .ret (a, model, some "invalid filter type") := by
  cases filter with
  | filter f => exact absurd rfl (hfilter f)
  | null | str _ | bool _ | filterPtr _ | other _ => rfl

/-- Witness for `LoadFilteredPolicy_invalid_filter`: a pointer to a `Filter`
with a non-empty column, on a live connection with a model already holding a
line. -/
theorem LoadFilteredPolicy_invalid_filter_witness :
    quietAdapter.LoadFilteredPolicy ["p, alice, data1, read"] (.filterPtr { V0 := ["alice"] })
      = .ret (quietAdapter, ["p, alice, data1, read"], some "invalid filter type") :=
  LoadFilteredPolicy_invalid_filter quietAdapter ["p, alice, data1, read"]
    (.filterPtr { V0 := ["alice"] }) (fun f h => by cases h)

/-- C15: on a live connection, a filtered load with a `Filter` value hands the
store the filter queries of the columns whose candidate list is non-empty,
in the order `p_type`, `v0`, ..., `v5`, each query being `select * from
<table> where <column> in (...)` on that one column with that column's
candidates as arguments. When no query fails it returns no error, has issued
exactly these queries, one per such column, and has set `isFiltered`. When a
query fails, the first one that does is the last one issued, its error is
what the call returns and `isFiltered` is left as it was. In either case the
engine has been fed, after the lines already there, the lines of the rows
answered to the queries issued, query by query. -/
theorem LoadFilteredPolicy_one_query_per_column (a : Adapter) (db : SqlDB) (model : Model)
    (f : Filter) (hdb : a.db = some db) :
    (∀ q ∈ filterQueries a.tableName f, ∃ col cands,
      (col, cands) ∈ f.columns ∧ cands ≠ [] ∧
      q = { text := "select * from " ++ a.tableName ++ " where " ++ col ++ " in (" ++
              stringsJoin
                ((List.range' 1 cands.length).map (fun j => " $" ++ strconvItoa (j : Nat))) "," ++
              ");"
            args := cands.map Iface.str }) ∧
    (filterQueries a.tableName f).length
      = (f.columns.filter (fun c => decide (c.2 ≠ []))).length ∧
    filterQueries a.tableName f
      = (([("p_type", f.PType), ("v0", f.V0), ("v1", f.V1), ("v2", f.V2), ("v3", f.V3),
            ("v4", f.V4), ("v5", f.V5)] : List (String × List String)).filter
          (fun c => decide (c.2.length > 0))).map
        (fun c => QueryFilter.stmt a.tableName c.1 c.2) ∧
    ∃ a1 m1 err db1,
      a.LoadFilteredPolicy model (.filter f) = .ret (a1, m1, err) ∧ a1.db = some db1 ∧
      ((∀ hist q, ∃ rows, db.queryAnswer hist q = .ok rows) → err = none) ∧
      (err = none →
        db1.issued = db.issued ++ filterQueries a.tableName f ∧ a1.isFiltered = true) ∧
      (∀ e, err = some e →
        a1.isFiltered = a.isFiltered ∧
        ∃ k q, (filterQueries a.tableName f)[k]? = some q ∧
          db1.issued = db.issued ++ (filterQueries a.tableName f).take (k + 1) ∧
          db.queryAnswer (db.issued ++ (filterQueries a.tableName f).take k) q = .error e) ∧
      ((∀ (k : Nat) (q : Stmt), (filterQueries a.tableName f)[k]? = some q →
          ∃ rows, db.queryAnswer (db.issued ++ (filterQueries a.tableName f).take k) q
            = .ok rows) →
        err = none) ∧
      (∀ (k : Nat) (q : Stmt) (e : String), (filterQueries a.tableName f)[k]? = some q →
        db.queryAnswer (db.issued ++ (filterQueries a.tableName f).take k) q = .error e →
        (∀ (j : Nat) (qj : Stmt), j < k → (filterQueries a.tableName f)[j]? = some qj →
          ∃ rows, db.queryAnswer (db.issued ++ (filterQueries a.tableName f).take j) qj
            = .ok rows) →
        err = some e ∧
          db1.issued = db.issued ++ (filterQueries a.tableName f).take (k + 1) ∧
          a1.isFiltered = a.isFiltered) ∧
      a1 = { a with db := some db1, isFiltered := err.isNone || a.isFiltered } ∧
      ∃ n, db1.issued = db.issued ++ (filterQueries a.tableName f).take n ∧
        m1 = model ++ (List.range n).flatMap
          (fedByQuery db db.issued (filterQueries a.tableName f)) := by
  refine ⟨fun q hq => columnQueries_shape a.tableName f.columns q hq, ?_, rfl, ?_⟩
  · simp only [filterQueries, columnQueries, List.length_map]
    congr 2
    funext c
    cases c.2 <;> simp
  · obtain ⟨m1, err, db1, n, hfold, hqa, hiss, hm1, hnone, hsome⟩ :=
      columns_fold f.columns a db model hdb
    rw [LoadFilteredPolicy_fold, hfold]
    simp only [filterQueries]
    cases err with
    | none =>
      obtain ⟨hn, hall⟩ := hnone rfl
      have hiss1 : db1.issued = db.issued ++ columnQueries a.tableName f.columns := by
        rw [hiss, hn, List.take_length]
      refine ⟨_, _, none, db1, rfl, rfl, fun _ => rfl, fun _ => ⟨hiss1, rfl⟩, by simp,
        fun _ => rfl, ?_, rfl, n, hiss, hm1⟩
      intro k q e hk herr _
      obtain ⟨rows, hrows⟩ := hall k q hk
      rw [hrows] at herr
      cases herr
    | some e =>
      obtain ⟨k, q, hn, hk, hans, hprev⟩ := hsome e rfl
      have hiss1 : db1.issued
          = db.issued ++ (columnQueries a.tableName f.columns).take (k + 1) := by
        rw [hiss, hn]
      refine ⟨_, _, some e, db1, rfl, rfl, ?_, by simp, ?_, ?_, ?_, rfl, n, hiss, hm1⟩
      · intro hall
        obtain ⟨rows, hrows⟩ := hall (db.issued ++ (columnQueries a.tableName f.columns).take k) q
        rw [hrows] at hans
        cases hans
      · intro e1 he1
        cases he1
        exact ⟨rfl, k, q, hk, hiss1, hans⟩
      · intro hall
        obtain ⟨rows, hrows⟩ := hall k q hk
        rw [hrows] at hans
        cases hans
      · intro k2 q2 e2 hk2 herr2 hprev2
        rcases Nat.lt_trichotomy k k2 with hlt | heq | hgt
        · obtain ⟨rows, hrows⟩ := hprev2 k q hlt hk
          rw [hrows] at hans
          cases hans
        · subst heq
          rw [hk] at hk2
          cases hk2
          rw [hans] at herr2
          cases herr2
          exact ⟨rfl, hiss1, rfl⟩
        · obtain ⟨rows, hrows⟩ := hprev k2 q2 hgt hk2
          rw [hrows] at herr2
          cases herr2

/-- Witness for `LoadFilteredPolicy_one_query_per_column`: the filter
`p_type in (p)`, `v1 in (x, y)` on the table `casbin_rule`. On a store that
answers, two queries are issued, the one on `p_type` first, and the flag is
set; on a store that rejects every query, the first query is the only one
issued, its error is returned and the flag stays false. -/
theorem LoadFilteredPolicy_one_query_per_column_witness :
    filterQueries "casbin_rule" { PType := ["p"], V1 := ["x", "y"] } =
      [⟨"select * from casbin_rule where p_type in ( $1);", [Iface.str "p"]⟩,
       ⟨"select * from casbin_rule where v1 in ( $1, $2);", [Iface.str "x", Iface.str "y"]⟩] ∧
    (∃ a1 m1 err db1,
      quietAdapter.LoadFilteredPolicy [] (.filter { PType := ["p"], V1 := ["x", "y"] })
        = .ret (a1, m1, err) ∧ a1.db = some db1 ∧ err = none ∧
      db1.issued = quietDB.issued ++
          filterQueries quietAdapter.tableName { PType := ["p"], V1 := ["x", "y"] } ∧
      a1.isFiltered = true) ∧
    (∃ a1 m1 err db1,
      { quietAdapter with db := some failingDB }.LoadFilteredPolicy []
          (.filter { PType := ["p"], V1 := ["x", "y"] })
        = .ret (a1, m1, err) ∧ a1.db = some db1 ∧ err = some "pq: error" ∧
      db1.issued = failingDB.issued ++
          (filterQueries quietAdapter.tableName { PType := ["p"], V1 := ["x", "y"] }).take
            (0 + 1) ∧
      a1.isFiltered = quietAdapter.isFiltered) :=
  ⟨by decide,
    let ⟨a1, m1, err, db1, h1, h2, h3, h4, _⟩ :=
      (LoadFilteredPolicy_one_query_per_column quietAdapter quietDB []
        { PType := ["p"], V1 := ["x", "y"] } rfl).2.2.2
    ⟨a1, m1, err, db1, h1, h2, h3 (fun _ _ => ⟨[], rfl⟩),
      (h4 (h3 (fun _ _ => ⟨[], rfl⟩))).1, (h4 (h3 (fun _ _ => ⟨[], rfl⟩))).2⟩,
    let ⟨a1, m1, err, db1, h1, h2, _, _, _, _, hB, _⟩ :=
      (LoadFilteredPolicy_one_query_per_column { quietAdapter with db := some failingDB }
        failingDB [] { PType := ["p"], V1 := ["x", "y"] } rfl).2.2.2
    ⟨a1, m1, err, db1, h1, h2,
      hB 0 ⟨"select * from casbin_rule where p_type in ( $1);", [Iface.str "p"]⟩ "pq: error"
        (by decide) rfl (fun j _ hj => absurd hj (Nat.not_lt_zero j))⟩⟩

/-! ## Properties: full load -/

/-- C14 (as stated) fails: on a result set whose second row reports a scan
error, `LoadPolicy` returns no error; it goes on and feeds the engine one
line per row, the line of the failed row being decoded from what the row
variable then holds (here `bob` with the `data1, read` left by the row
before). -/
theorem LoadPolicy_ignores_scan_error :
    (rowsScan ⟨1, "p", "alice", "data1", "read", "", "", ""⟩
        { vals := ⟨2, "p", "bob", "", "", "", "", ""⟩, converts := 3 }).2
      = some "sql: Scan error" ∧
    ∃ a1, { quietAdapter with db := some halfScannedDB }.LoadPolicy []
      = .ret (a1, ["p, alice, data1, read", "p, bob, data1, read"], none) :=
  ⟨rfl, _, rfl⟩

/-- C14 (amended): `LoadPolicy` issues the one statement `select * from
<table>;`. When that query fails it returns the error and feeds the engine
nothing. When the query succeeds it returns no error, whether or not a scan
reported one, and feeds the engine one line per row of the result set, in
order, after the lines already there: the line for row `i` is the decoding
of the row variable as it stands after the scans of rows `0..i`, that is
after the scan of row `i` has overwritten, in what the rows before left, the
destinations up to the first column that does not convert. So a row that
scans is decoded from its own values, and a row whose scan fails is decoded
from its converted leading columns and the values left by the rows before. -/
theorem LoadPolicy_error_only_from_query (a : Adapter) (db : SqlDB) (model : Model)
    (hdb : a.db = some db) :
    (∀ err, db.queryAnswer db.issued ⟨"select * from " ++ a.tableName ++ ";", []⟩ = .error err →
      a.LoadPolicy model =
        .ret ({ a with db := some { db with issued := db.issued ++
                  [⟨"select * from " ++ a.tableName ++ ";", []⟩] } }, model, some err)) ∧
    (∀ rows, db.queryAnswer db.issued ⟨"select * from " ++ a.tableName ++ ";", []⟩ = .ok rows →
      a.LoadPolicy model =
        .ret ({ a with db := some { db with issued := db.issued ++
                  [⟨"select * from " ++ a.tableName ++ ";", []⟩] } },
          model ++ (List.range rows.length).map
            (fun i => loadPolicyLineText (rowVariable {} (rows.take (i + 1)))), none) ∧
      ((List.range rows.length).map
        (fun i => loadPolicyLineText (rowVariable {} (rows.take (i + 1))))).length
          = rows.length ∧
      (∀ (i : Nat) (r : ResultRow), rows[i]? = some r →
        rowVariable {} (rows.take (i + 1)) = (rowsScan (rowVariable {} (rows.take i)) r).1) ∧
      (∀ (i : Nat) (r : ResultRow), rows[i]? = some r → 8 ≤ r.converts →
        rowVariable {} (rows.take (i + 1)) = r.vals) ∧
      ((∀ r ∈ rows, 8 ≤ r.converts) →
        (List.range rows.length).map
            (fun i => loadPolicyLineText (rowVariable {} (rows.take (i + 1))))
          = rows.map (fun r => loadPolicyLineText r.vals))) ∧
    (∀ (dest : CasbinRule) (r : ResultRow),
      rowsScan dest r =
        ({ ID := if 0 < r.converts then r.vals.ID else dest.ID
           PType := if 1 < r.converts then r.vals.PType else dest.PType
           V0 := if 2 < r.converts then r.vals.V0 else dest.V0
           V1 := if 3 < r.converts then r.vals.V1 else dest.V1
           V2 := if 4 < r.converts then r.vals.V2 else dest.V2
           V3 := if 5 < r.converts then r.vals.V3 else dest.V3
           V4 := if 6 < r.converts then r.vals.V4 else dest.V4
           V5 := if 7 < r.converts then r.vals.V5 else dest.V5 },
          if 8 ≤ r.converts then none else some "sql: Scan error")) := by
  refine ⟨?_, ?_, fun _ _ => rfl⟩
  · intro err herr
    simp [Adapter.LoadPolicy, hdb, SqlDB.Query, herr]
  · intro rows hrows
    have hlines := scanRows_lines rows {} model
    refine ⟨?_, by simp, fun i r hr => rowVariable_take_succ {} rows i r hr, ?_, ?_⟩
    · simp only [Adapter.LoadPolicy, hdb, SqlDB.Query, hrows, hlines]
    · intro i r hr hconv
      rw [rowVariable_take_succ {} rows i r hr, rowsScan_converts _ r hconv]
    · intro hall
      have h1 := scanRows_lines rows {} []
      have h2 := scanRows_converts rows hall {}
      rw [h1] at h2
      simpa using h2

/-- Witness for `LoadPolicy_error_only_from_query`: a store that rejects the
query, and a store that answers it with two rows, the second of which stops
converting at `v1`: its line keeps `data1, read` from the first row. -/
theorem LoadPolicy_error_only_from_query_witness :
    { quietAdapter with db := some failingDB }.LoadPolicy ["g, alice, admin"] =
      .ret ({ quietAdapter with db := some { failingDB with issued := failingDB.issued ++
                [⟨"select * from " ++ quietAdapter.tableName ++ ";", []⟩] } },
        ["g, alice, admin"], some "pq: error") ∧
    { quietAdapter with db := some halfScannedDB }.LoadPolicy ["g, alice, admin"] =
      .ret ({ quietAdapter with db := some { halfScannedDB with issued :=
                halfScannedDB.issued ++
                  [⟨"select * from " ++ quietAdapter.tableName ++ ";", []⟩] } },
        ["g, alice, admin"] ++ ["p, alice, data1, read", "p, bob, data1, read"], none) ∧
    rowVariable {}
        (List.take (1 + 1)
          [{ vals := ⟨1, "p", "alice", "data1", "read", "", "", ""⟩ },
           { vals := ⟨2, "p", "bob", "", "", "", "", ""⟩, converts := 3 }])
      = ⟨2, "p", "bob", "data1", "read", "", "", ""⟩ :=
  ⟨(LoadPolicy_error_only_from_query { quietAdapter with db := some failingDB } failingDB
      ["g, alice, admin"] rfl).1 "pq: error" rfl,
    ((LoadPolicy_error_only_from_query { quietAdapter with db := some halfScannedDB }
      halfScannedDB ["g, alice, admin"] rfl).2.1 _ rfl).1,
    (((LoadPolicy_error_only_from_query { quietAdapter with db := some halfScannedDB }
      halfScannedDB ["g, alice, admin"] rfl).2.1 _ rfl).2.2.1 1
        { vals := ⟨2, "p", "bob", "", "", "", "", ""⟩, converts := 3 } rfl).trans rfl⟩

/-! ## Properties: the table of the statements -/

/-- C19: on a live connection, whatever table name the adapter is configured
with, the statement `ExecInsertSqlRow` builds is an insert into the literal
table `casbin_rule`, and so are the statement of `AddPolicy`, every statement
of `AddPolicies` and every insert of `SavePolicy`; whereas the `DROP TABLE`
and `CREATE table` of `SavePolicy`, the select of `LoadPolicy` and of
`QueryFilter` and the delete of `rawDelete` are on the configured
`a.tableName`. The insert is the one for the configured table only when that
table is `casbin_rule`. -/
theorem inserts_ignore_tableName (a : Adapter) (db : SqlDB)
    (order : GoMap → List (String × Iface)) (hdb : a.db = some db) :
    (∀ arg, ∃ cols args,
      a.ExecInsertSqlRow arg =
        .ret ({ a with db := some { db with issued := db.issued ++
                  [⟨insertTextInto "casbin_rule" cols, args⟩] } },
          db.execAnswer db.issued ⟨insertTextInto "casbin_rule" cols, args⟩)) ∧
    (∀ sec ptype rule, ∃ cols args,
      a.AddPolicy order sec ptype rule =
        .ret ({ a with db := some { db with issued := db.issued ++
                  [⟨insertTextInto "casbin_rule" cols, args⟩] } },
          db.execAnswer db.issued ⟨insertTextInto "casbin_rule" cols, args⟩)) ∧
    (∀ sec ptype rules, ∃ err db1 qs,
      a.AddPolicies order sec ptype rules = .ret ({ a with db := some db1 }, err) ∧
      db1.issued = db.issued ++ qs ∧
      ∀ q ∈ qs, ∃ cols, q.text = insertTextInto "casbin_rule" cols) ∧
    (∀ model, ∃ err db1 qs,
      a.SavePolicy order model = .ret ({ a with db := some db1 }, err) ∧
      db1.issued = db.issued ++ ⟨"DROP TABLE " ++ a.tableName ++ ";", []⟩ :: qs ∧
      ∀ q ∈ qs, q = ⟨createTableText a.tableName, []⟩ ∨
        ∃ cols, q.text = insertTextInto "casbin_rule" cols) ∧
    (∃ mid rest, createTableText a.tableName
      = "CREATE table IF NOT EXISTS " ++ a.tableName ++ mid ++ a.tableName ++ rest) ∧
    (∀ model, ∃ m1 err,
      a.LoadPolicy model =
        .ret ({ a with db := some { db with issued := db.issued ++
                  [⟨"select * from " ++ a.tableName ++ ";", []⟩] } }, m1, err)) ∧
    (∀ filtersub qvalue, ∃ inlist,
      (QueryFilter.stmt a.tableName filtersub qvalue).text
        = "select * from " ++ a.tableName ++ " where " ++ filtersub ++ " in (" ++ inlist ++
            ");") ∧
    (∀ ptype line, ∃ predicate,
      (rawDelete.stmt a.tableName ptype line).text
        = "delete from " ++ a.tableName ++ " where " ++ predicate ++ ";") ∧
    (∀ cols, insertTextInto a.tableName cols = insertTextInto "casbin_rule" cols ↔
      a.tableName = "casbin_rule") := by
  refine ⟨?_, ?_, ?_, ?_, ⟨_, _, rfl⟩, ?_, fun _ _ => ⟨_, rfl⟩, fun _ _ => ⟨_, rfl⟩, ?_⟩
  · intro arg
    exact ⟨_, _, by rw [ExecInsertSqlRow_eq a db arg hdb, insertText_literal]⟩
  · intro sec ptype rule
    exact ⟨_, _, by rw [Adapter.AddPolicy, ExecInsertSqlRow_eq a db _ hdb, insertText_literal]⟩
  · intro sec ptype rules
    obtain ⟨err, db1, qs, hrun, hiss, hqs⟩ := insertRules_issued order ptype rules a db hdb
    refine ⟨err, db1, qs, hrun, hiss, fun q hq => ?_⟩
    obtain ⟨cols, hcols⟩ := hqs q hq
    exact ⟨cols, by rw [hcols, insertText_literal]⟩
  · intro model
    obtain ⟨err, db1, qs, hrun, hiss, hqs⟩ := SavePolicy_issued a db order model hdb
    refine ⟨err, db1, qs, hrun, hiss, fun q hq => ?_⟩
    rcases hqs q hq with h | ⟨cols, hcols⟩
    · exact Or.inl h
    · exact Or.inr ⟨cols, by rw [hcols, insertText_literal]⟩
  · intro model
    simp only [Adapter.LoadPolicy, hdb, SqlDB.Query]
    cases db.queryAnswer db.issued ⟨"select * from " ++ a.tableName ++ ";", []⟩ with
    | error e => exact ⟨_, _, rfl⟩
    | ok rows => exact ⟨_, _, rfl⟩
  · intro cols
    exact ⟨fun h => insertTextInto_inj _ _ cols h, fun h => by rw [h]⟩

/-- Witness for `inserts_ignore_tableName`: an adapter configured for the table
`policy`. Saving a model with the rule `p, alice, data1, read` drops and
creates `policy` and inserts into `casbin_rule`; the insert text is not the
one for `policy`. -/
theorem inserts_ignore_tableName_witness :
    (∃ cols args,
      policyAdapter.AddPolicy List.reverse "p" "p" ["alice", "data1", "read"] =
        .ret ({ policyAdapter with db := some { quietDB with issued := quietDB.issued ++
                  [⟨insertTextInto "casbin_rule" cols, args⟩] } },
          quietDB.execAnswer quietDB.issued ⟨insertTextInto "casbin_rule" cols, args⟩)) ∧
    (insertTextInto policyAdapter.tableName ["p_type", "v0"]
        = insertTextInto "casbin_rule" ["p_type", "v0"] ↔
      policyAdapter.tableName = "casbin_rule") ∧
    (∃ a1, policyAdapter.SavePolicy (fun m => m)
          { p := [("p", [["alice", "data1", "read"]])] } = .ret (a1, none) ∧
      a1.db.map SqlDB.issued = some
        [⟨"DROP TABLE policy;", []⟩, ⟨createTableText "policy", []⟩,
          ⟨"insert into casbin_rule(p_type,v0,v1,v2) values($1,$2,$3,$4);",
            [Iface.str "p", Iface.str "alice", Iface.str "data1", Iface.str "read"]⟩]) :=
  ⟨(inserts_ignore_tableName policyAdapter quietDB List.reverse rfl).2.1 "p" "p"
      ["alice", "data1", "read"],
    (inserts_ignore_tableName policyAdapter quietDB List.reverse rfl).2.2.2.2.2.2.2.2
      ["p_type", "v0"],
    ⟨_, rfl, rfl⟩⟩

end CasbinPgAdapter
